import Mathlib

/-!
Verification development for the intscript toolchain: a shallow embedding of
the assembly IR and encoder (src/as/ast.cc, src/as/encode.cc), the IntCode
virtual machine (src/run/intcode.cc), the source-language parser and code
generator (compiler.parser, src/compiler/codegen.cc), and the intcode loader.
Each definition mirrors the corresponding C++ function; fatal errors
(die / check / std::abort / std::exit) are modelled as Except/Option failures.
-/

set_option maxRecDepth 10000

namespace As

/-- Mirrors as::literal / as::name: the immediate sum type. -/
inductive immediate where
  | literal (value : Int)
  | name (value : String)
  deriving Repr, DecidableEq

/-- Mirrors as::address: the cell whose index is the immediate. -/
structure address where
  value : immediate
  deriving Repr, DecidableEq

/-- Mirrors as::relative: the cell at relative_base + immediate. -/
structure relative where
  value : immediate
  deriving Repr, DecidableEq

/-- Mirrors input_param::type = variant(address, immediate, relative). -/
inductive input_variant where
  | addr (value : address)
  | imm (value : immediate)
  | rel (value : relative)
  deriving Repr, DecidableEq

/-- Mirrors as::input_param: optional cell label plus the operand. -/
structure input_param where
  label : Option String
  input : input_variant
  deriving Repr, DecidableEq

/-- Mirrors the variant(address, relative) inside as::output_param. -/
inductive output_variant where
  | addr (value : address)
  | rel (value : relative)
  deriving Repr, DecidableEq

/-- Mirrors as::output_param: optional cell label plus the operand. -/
structure output_param where
  label : Option String
  output : output_variant
  deriving Repr, DecidableEq

/-- Mirrors input_param's converting constructor from output_param:
it keeps the label and injects the address/relative alternative. -/
def input_param.ofOutput (o : output_param) : input_param :=
  { label := o.label,
    input := match o.output with
      | .addr a => .addr a
      | .rel r => .rel r }

/-- Mirrors as::calculation. -/
structure calculation where
  a : input_param
  b : input_param
  out : output_param
  deriving Repr, DecidableEq

/-- Mirrors as::jump. -/
structure jump where
  condition : input_param
  target : input_param
  deriving Repr, DecidableEq

/-- Mirrors as::instruction (the variant of all opcodes plus inline literal). -/
inductive instruction where
  | literal (value : Int)
  | add (c : calculation)
  | mul (c : calculation)
  | input (out : output_param)
  | output (x : input_param)
  | jump_if_true (j : jump)
  | jump_if_false (j : jump)
  | less_than (c : calculation)
  | equals (c : calculation)
  | adjust_relative_base (amount : input_param)
  | halt
  deriving Repr, DecidableEq

/-- Mirrors as::define / as::integer / as::ascii (the directive variant). -/
inductive directive where
  | define (name : String) (value : input_param)
  | integer (value : immediate)
  | ascii (value : String)
  deriving Repr, DecidableEq

/-- Mirrors as::statement = variant(label, instruction, directive). -/
inductive statement where
  | label (name : String)
  | instr (i : instruction)
  | dir (d : directive)
  deriving Repr, DecidableEq

/-- Mirrors std::quoted as used in diagnostics: wrap in double quotes,
escaping backslashes and quotes. -/
def cppQuoted (s : String) : String :=
  "\"" ++ String.mk (s.data.foldr
    (fun c acc => if c = '"' ∨ c = '\\' then '\\' :: c :: acc else c :: acc)
    []) ++ "\""

/-- Mirrors as::size(const instruction&) from encode.cc. -/
def size : instruction → Nat
  | .literal _ => 1
  | .add _ => 4
  | .mul _ => 4
  | .less_than _ => 4
  | .equals _ => 4
  | .jump_if_true _ => 3
  | .jump_if_false _ => 3
  | .input _ => 2
  | .output _ => 2
  | .adjust_relative_base _ => 2
  | .halt => 1

/-- Mirrors as::mode(const input_param&): Address 0, Immediate 1, Relative 2. -/
def mode_in (i : input_param) : Int :=
  match i.input with
  | .addr _ => 0
  | .imm _ => 1
  | .rel _ => 2

/-- Mirrors as::mode(const output_param&): Address 0, Relative 2. -/
def mode_out (o : output_param) : Int :=
  match o.output with
  | .addr _ => 0
  | .rel _ => 2

/-- Mirrors as::mode(const instruction&). -/
def mode_instr : instruction → Int
  | .literal _ => 0
  | .add c => mode_in c.a + 10 * mode_in c.b + 100 * mode_out c.out
  | .mul c => mode_in c.a + 10 * mode_in c.b + 100 * mode_out c.out
  | .less_than c => mode_in c.a + 10 * mode_in c.b + 100 * mode_out c.out
  | .equals c => mode_in c.a + 10 * mode_in c.b + 100 * mode_out c.out
  | .input i => mode_out i
  | .output o => mode_in o
  | .jump_if_true j => mode_in j.condition + 10 * mode_in j.target
  | .jump_if_false j => mode_in j.condition + 10 * mode_in j.target
  | .adjust_relative_base a => mode_in a
  | .halt => 0

/-- Mirrors as::opcode(const instruction&): 100 * mode(i) + code, where a
literal's code is its own value. -/
def opcode_instr (i : instruction) : Int :=
  let code : Int :=
    match i with
    | .literal l => l
    | .add _ => 1
    | .mul _ => 2
    | .input _ => 3
    | .output _ => 4
    | .jump_if_true _ => 5
    | .jump_if_false _ => 6
    | .less_than _ => 7
    | .equals _ => 8
    | .adjust_relative_base _ => 9
    | .halt => 99
  100 * mode_instr i + code

/-- Mirrors as::immediate_value: a still-unresolved name aborts. -/
def immediate_value : immediate → Except String Int
  | .literal l => .ok l
  | .name n => .error ("Unresolved immediate " ++ cppQuoted n ++ ".")

/-- Mirrors as::param_value(const input_param&). -/
def param_value_in (i : input_param) : Except String Int :=
  match i.input with
  | .addr a => immediate_value a.value
  | .imm i => immediate_value i
  | .rel r => immediate_value r.value

/-- Mirrors as::param_value(const output_param&). -/
def param_value_out (o : output_param) : Except String Int :=
  match o.output with
  | .addr a => immediate_value a.value
  | .rel r => immediate_value r.value

/-- Mirrors as::encode(buffer, instruction): the head cell followed by the
operand values in operand order. -/
def encode_instruction (i : instruction) : Except String (List Int) := do
  let head := opcode_instr i
  match i with
  | .literal _ => pure [head]
  | .add c | .mul c | .less_than c | .equals c =>
      pure [head, ← param_value_in c.a, ← param_value_in c.b,
            ← param_value_out c.out]
  | .input i => pure [head, ← param_value_out i]
  | .output o => pure [head, ← param_value_in o]
  | .jump_if_true j | .jump_if_false j =>
      pure [head, ← param_value_in j.condition, ← param_value_in j.target]
  | .adjust_relative_base a => pure [head, ← param_value_in a]
  | .halt => pure [head]

/-- Mirrors visit_params: operand labels in operand order (index 1, 2, 3). -/
def param_labels : instruction → List (Option String)
  | .literal _ => []
  | .add c | .mul c | .less_than c | .equals c =>
      [c.a.label, c.b.label, c.out.label]
  | .input i => [i.label]
  | .output o => [o.label]
  | .jump_if_true j | .jump_if_false j => [j.condition.label, j.target.label]
  | .adjust_relative_base a => [a.label]
  | .halt => []

/-- Mirrors the environment struct of encode.cc: the constants map and the
macros map (the latter is built from .define directives; the source field is
called macros). -/
structure environment where
  constants : List (String × Int)
  defs : List (String × input_param)
  deriving Repr, DecidableEq

/-- Mirrors the emplace in environment's set helper: a duplicate key is a
fatal duplicate-definition error. -/
def envSet {α : Type} (m : List (String × α)) (key : String) (value : α) :
    Except String (List (String × α)) :=
  if (m.lookup key).isSome then
    .error ("Duplicate definition for " ++ cppQuoted key ++ ".")
  else
    .ok (m ++ [(key, value)])

/-- Binds the labels attached to one instruction's operands, operand index 1
onward, as pass 1 of the encoder does. -/
def bindParamLabels (constants : List (String × Int)) (offset : Int)
    (labels : List (Option String)) (index : Nat) :
    Except String (List (String × Int)) :=
  match labels with
  | [] => .ok constants
  | none :: rest => bindParamLabels constants offset rest (index + 1)
  | some l :: rest => do
      let constants ← envSet constants l (offset + index)
      bindParamLabels constants offset rest (index + 1)

/-- Pass 1 of as::encode (the environment constructor): walk the statements,
recording label offsets, operand-label offsets and .define macros, while
advancing the offset by the size of each emitted item. -/
def buildEnvironment (input : List statement) : Except String environment := do
  let mut constants : List (String × Int) := []
  let mut defs : List (String × input_param) := []
  let mut offset : Int := 0
  for s in input do
    match s with
    | .label l => constants ← envSet constants l offset
    | .instr i =>
        constants ← bindParamLabels constants offset (param_labels i) 1
        offset := offset + (size i : Int)
    | .dir (.define n v) => defs ← envSet defs n v
    | .dir (.integer _) => offset := offset + 1
    | .dir (.ascii a) => offset := offset + (a.length : Int) + 1
  pure { constants := constants, defs := defs }

/-- Mirrors environment::resolve(immediate&): a name is replaced by the
constant bound to it; an unbound name is a fatal undefined-name error.
Note that, as in the source, the macros map is never consulted here. -/
def resolveImmediate (e : environment) : immediate → Except String immediate
  | .literal l => .ok (.literal l)
  | .name n =>
      match e.constants.lookup n with
      | some v => .ok (.literal v)
      | none => .error ("Undefined name " ++ cppQuoted n ++ ".")

/-- Mirrors environment::resolve(input_param&). -/
def resolveInput (e : environment) (i : input_param) :
    Except String input_param := do
  match i.input with
  | .addr a => pure { i with input := .addr ⟨← resolveImmediate e a.value⟩ }
  | .imm x => pure { i with input := .imm (← resolveImmediate e x) }
  | .rel r => pure { i with input := .rel ⟨← resolveImmediate e r.value⟩ }

/-- Mirrors environment::resolve(output_param&). -/
def resolveOutput (e : environment) (o : output_param) :
    Except String output_param := do
  match o.output with
  | .addr a => pure { o with output := .addr ⟨← resolveImmediate e a.value⟩ }
  | .rel r => pure { o with output := .rel ⟨← resolveImmediate e r.value⟩ }

/-- Mirrors environment::resolve(instruction&). -/
def resolveInstruction (e : environment) :
    instruction → Except String instruction
  | .literal l => .ok (.literal l)
  | .add c => do
      pure (.add ⟨← resolveInput e c.a, ← resolveInput e c.b,
                  ← resolveOutput e c.out⟩)
  | .mul c => do
      pure (.mul ⟨← resolveInput e c.a, ← resolveInput e c.b,
                  ← resolveOutput e c.out⟩)
  | .less_than c => do
      pure (.less_than ⟨← resolveInput e c.a, ← resolveInput e c.b,
                        ← resolveOutput e c.out⟩)
  | .equals c => do
      pure (.equals ⟨← resolveInput e c.a, ← resolveInput e c.b,
                     ← resolveOutput e c.out⟩)
  | .input i => do pure (.input (← resolveOutput e i))
  | .output o => do pure (.output (← resolveInput e o))
  | .jump_if_true j => do
      pure (.jump_if_true ⟨← resolveInput e j.condition,
                           ← resolveInput e j.target⟩)
  | .jump_if_false j => do
      pure (.jump_if_false ⟨← resolveInput e j.condition,
                            ← resolveInput e j.target⟩)
  | .adjust_relative_base a => do
      pure (.adjust_relative_base (← resolveInput e a))
  | .halt => .ok .halt

/-- Mirrors pass 2 of as::encode: emit the cells of every statement, with
labels and defines emitting nothing, and .ascii emitting each character code
followed by a terminating zero. -/
def encode (input : List statement) : Except String (List Int) := do
  let env ← buildEnvironment input
  let mut output : List Int := []
  for s in input do
    match s with
    | .label _ => pure ()
    | .instr i =>
        let temp ← resolveInstruction env i
        output := output ++ (← encode_instruction temp)
    | .dir (.define _ _) => pure ()
    | .dir (.integer x) =>
        let r ← resolveImmediate env x
        output := output ++ [← immediate_value r]
    | .dir (.ascii a) =>
        output := output ++ (a.data.map (fun c => (c.toNat : Int))) ++ [0]
  pure output

end As

namespace Intcode

/-- Mirrors enum class mode of intcode.cc. -/
inductive mode where
  | position
  | immediate
  | relative
  deriving Repr, DecidableEq

/-- Mirrors is_mode: the digit is 0, 1 or 2 (digits are non-negative here). -/
def is_mode (x : Nat) : Bool := x ≤ 2

/-- Mirrors mode(int) as applied to a digit already checked by is_mode. -/
def mode.fromDigit : Nat → mode
  | 0 => .position
  | 1 => .immediate
  | _ => .relative

/-- Mirrors enum class opcode of intcode.cc (0 is the illegal marker). -/
inductive opcode where
  | illegal
  | add
  | mul
  | input
  | output
  | jump_if_true
  | jump_if_false
  | less_than
  | equals
  | adjust_relative_base
  | halt
  deriving Repr, DecidableEq

/-- Mirrors is_opcode: 1..9 or 99. -/
def is_opcode (x : Nat) : Bool := (1 ≤ x && x ≤ 9) || x = 99

/-- Mirrors opcode(int) as applied to a value already checked by is_opcode. -/
def opcode.fromCode : Nat → opcode
  | 1 => .add
  | 2 => .mul
  | 3 => .input
  | 4 => .output
  | 5 => .jump_if_true
  | 6 => .jump_if_false
  | 7 => .less_than
  | 8 => .equals
  | 9 => .adjust_relative_base
  | 99 => .halt
  | _ => .illegal

/-- Mirrors struct op: the decoded opcode plus three parameter modes
(value-initialized to illegal / position). -/
structure op where
  code : opcode := .illegal
  p0 : mode := .position
  p1 : mode := .position
  p2 : mode := .position
  deriving Repr, DecidableEq

/-- Parameter mode by index, as op.params[i] is used with i in 0..2. -/
def op.param (o : op) : Nat → mode
  | 0 => o.p0
  | 1 => o.p1
  | _ => o.p2

/-- Mirrors parse_op of the constexpr ops table: extract the opcode from the
last two decimal digits, then the three mode digits, reject any leftover
digits, and reject an immediate destination for Add/Mul/LessThan/Equals and
for Input. Any rejection yields the value-initialized (illegal) op. -/
def parse_op (x : Nat) : op :=
  let code := x % 100
  if ¬ is_opcode code then {}
  else
    let x1 := x / 100
    if ¬ is_mode (x1 % 10) then {}
    else
      let m0 := mode.fromDigit (x1 % 10)
      let x2 := x1 / 10
      if ¬ is_mode (x2 % 10) then {}
      else
        let m1 := mode.fromDigit (x2 % 10)
        let x3 := x2 / 10
        if ¬ is_mode (x3 % 10) then {}
        else
          let m2 := mode.fromDigit (x3 % 10)
          let x4 := x3 / 10
          if x4 ≠ 0 then {}
          else
            let result : op :=
              { code := opcode.fromCode code, p0 := m0, p1 := m1, p2 := m2 }
            match result.code with
            | .add | .mul | .less_than | .equals =>
                if result.p2 = .immediate then {} else result
            | .input =>
                if result.p0 = .immediate then {} else result
            | _ => result

/-- Size of the precomputed ops lookup table (std::array of 29999 entries). -/
def opsTableSize : Nat := 29999

/-- Mirrors decode_op: check(0 <= x && x < ops.size()) traps (none) on an
out-of-range head value, otherwise index the precomputed table. -/
def decode_op (x : Int) : Option op :=
  if 0 ≤ x ∧ x < (opsTableSize : Int) then some (parse_op x.toNat) else none

/-- The sparse VM memory of 3.3: reads of never-written cells return zero. -/
def Mem : Type := Int → Int

/-- Memory write at one cell. -/
def memWrite (m : Mem) (i v : Int) : Mem :=
  fun j => if j = i then v else m j

/-- Memory built from an initially loaded program image (cells 0..n-1). -/
def memOfProgram (source : List Int) : Mem :=
  fun j =>
    if h : 0 ≤ j ∧ j < (source.length : Int) then
      source.get ⟨j.toNat, by omega⟩
    else 0

/-- Mirrors enum state of class program. -/
inductive pstate where
  | ready
  | waiting_for_input
  | output
  | halt
  deriving Repr, DecidableEq

/-- Mirrors the fields of class program (debug flag omitted: it only prints). -/
structure program where
  state : pstate := .ready
  pc : Int := 0
  input_address : Int := 0
  output_value : Int := 0
  relative_base : Int := 0
  memory : Mem

/-- Mirrors the get lambda of program::resume for parameter index i. -/
def get (p : program) (o : op) (i : Nat) : Int :=
  let x := p.memory (p.pc + i + 1)
  match o.param i with
  | .position => p.memory x
  | .immediate => x
  | .relative => p.memory (p.relative_base + x)

/-- Mirrors the put lambda of program::resume: writing through an
immediate-mode parameter aborts (none). -/
def put (p : program) (o : op) (i : Nat) (v : Int) : Option Mem :=
  let x := p.memory (p.pc + i + 1)
  match o.param i with
  | .position => some (memWrite p.memory x v)
  | .immediate => none
  | .relative => some (memWrite p.memory (p.relative_base + x) v)

/-- One iteration of the while loop in program::resume: decode the head at
pc and execute it. none models a trap (illegal instruction or an
immediate-mode write). Suspension points set the state and leave pc
unchanged; Halt sets the terminal state. -/
def step (p : program) : Option program :=
  match decode_op (p.memory p.pc) with
  | none => none
  | some o =>
    match o.code with
    | .illegal => none
    | .add =>
        match put p o 2 (get p o 0 + get p o 1) with
        | none => none
        | some m => some { p with memory := m, pc := p.pc + 4 }
    | .mul =>
        match put p o 2 (get p o 0 * get p o 1) with
        | none => none
        | some m => some { p with memory := m, pc := p.pc + 4 }
    | .input =>
        match o.p0 with
        | .position =>
            some { p with state := .waiting_for_input,
                          input_address := p.memory (p.pc + 1) }
        | .immediate => none
        | .relative =>
            some { p with state := .waiting_for_input,
                          input_address :=
                            p.relative_base + p.memory (p.pc + 1) }
    | .output =>
        some { p with state := .output, output_value := get p o 0 }
    | .jump_if_true =>
        some { p with pc := if get p o 0 ≠ 0 then get p o 1 else p.pc + 3 }
    | .jump_if_false =>
        some { p with pc := if get p o 0 ≠ 0 then p.pc + 3 else get p o 1 }
    | .less_than =>
        match put p o 2 (if get p o 0 < get p o 1 then 1 else 0) with
        | none => none
        | some m => some { p with memory := m, pc := p.pc + 4 }
    | .equals =>
        match put p o 2 (if get p o 0 = get p o 1 then 1 else 0) with
        | none => none
        | some m => some { p with memory := m, pc := p.pc + 4 }
    | .adjust_relative_base =>
        some { p with relative_base := p.relative_base + get p o 0,
                      pc := p.pc + 2 }
    | .halt => some { p with state := .halt }

/-- The loop of program::resume: execute instructions until one suspends or
halts. The fuel bounds the number of iterations we are willing to model;
running out of fuel yields none. -/
def resumeLoop : Nat → program → Option program
  | 0, _ => none
  | fuel + 1, p =>
      match step p with
      | none => none
      | some q =>
          match q.state with
          | .ready => resumeLoop fuel q
          | _ => some q

/-- Mirrors program::resume: check(state_ == ready) terminates the process
(none) in any other state, then run the loop. -/
def resume (fuel : Nat) (p : program) : Option program :=
  if p.state = .ready then resumeLoop fuel p else none

/-- Mirrors program::provide_input: check(state_ == waiting_for_input), then
write x at the recorded input address, return to ready, and advance pc by 2. -/
def provide_input (p : program) (x : Int) : Option program :=
  if p.state = .waiting_for_input then
    some { p with state := .ready,
                  memory := memWrite p.memory p.input_address x,
                  pc := p.pc + 2 }
  else none

/-- Mirrors program::get_output: check(state_ == output), then return to
ready, advance pc by 2, and yield the pending output value. -/
def get_output (p : program) : Option (Int × program) :=
  if p.state = .output then
    some (p.output_value, { p with state := .ready, pc := p.pc + 2 })
  else none

end Intcode

namespace Compiler

/-- Mirrors compiler::literal = variant(int64, string). -/
inductive literal where
  | int (value : Int)
  | str (value : String)
  deriving Repr, DecidableEq

/-- Mirrors compiler::expression (the recursive expression sum of ast.cc). -/
inductive expression where
  | lit (l : literal)
  | name (value : String)
  | call (function : expression) (arguments : List expression)
  | add (left right : expression)
  | sub (left right : expression)
  | mul (left right : expression)
  | less_than (left right : expression)
  | equals (left right : expression)
  | input
  | read (address : expression)
  | logical_and (left right : expression)
  | logical_or (left right : expression)
  deriving Repr

/-- Mirrors compiler::negate. -/
def negate (x : expression) : expression := .mul x (.lit (.int (-1)))

/-- Mirrors compiler::logical_not. -/
def logical_not (x : expression) : expression := .equals x (.lit (.int 0))

/-- Mirrors compiler::greater_than. -/
def greater_than (l r : expression) : expression := .less_than r l

/-- Mirrors compiler::less_or_equal. -/
def less_or_equal (l r : expression) : expression :=
  logical_not (greater_than l r)

/-- Mirrors compiler::greater_or_equal. -/
def greater_or_equal (l r : expression) : expression :=
  logical_not (.less_than l r)

/-- Mirrors compiler::not_equals. -/
def not_equals (l r : expression) : expression :=
  logical_not (.equals l r)

/-- Mirrors compiler::is_lvalue: true only for Name and Read. -/
def is_lvalue : expression → Bool
  | .name _ => true
  | .read _ => true
  | _ => false

/-- Mirrors compiler::statement (the recursive statement sum of ast.cc). -/
inductive statement where
  | constant (name : String) (value : expression)
  | call (function : expression) (arguments : List expression)
  | declare_scalar (name : String)
  | declare_array (name : String) (size : expression)
  | assign (left right : expression)
  | add_assign (left right : expression)
  | if_statement (condition : expression)
      (then_branch else_branch : List statement)
  | while_statement (condition : expression) (body : List statement)
  | output_statement (value : expression)
  | return_statement (value : expression)
  | break_statement
  | continue_statement
  | halt_statement
  deriving Repr

mutual

/-- Mirrors the ostream printers of compiler/ast.cc for expressions (used
verbatim inside fatal diagnostics). -/
def exprToString : expression → String
  | .lit (.int v) => toString v
  | .lit (.str s) => As.cppQuoted s
  | .name n => n
  | .call f args => exprToString f ++ "(" ++ exprListToString true args ++ ")"
  | .add l r => "(" ++ exprToString l ++ " + " ++ exprToString r ++ ")"
  | .sub l r => "(" ++ exprToString l ++ " - " ++ exprToString r ++ ")"
  | .mul l r => "(" ++ exprToString l ++ " * " ++ exprToString r ++ ")"
  | .less_than l r => "(" ++ exprToString l ++ " < " ++ exprToString r ++ ")"
  | .equals l r => "(" ++ exprToString l ++ " == " ++ exprToString r ++ ")"
  | .input => "input"
  | .read a => "*" ++ exprToString a
  | .logical_and l r =>
      "(" ++ exprToString l ++ " && " ++ exprToString r ++ ")"
  | .logical_or l r =>
      "(" ++ exprToString l ++ " || " ++ exprToString r ++ ")"

/-- Comma-separated printing of a call's argument list. -/
def exprListToString (first : Bool) : List expression → String
  | [] => ""
  | e :: rest =>
      (if first then "" else ", ") ++ exprToString e ++
        exprListToString false rest

end

end Compiler

/-- Bounds of the C++ std::int64_t type used by both std::from_chars call
sites (the source parser and the intcode scanner). -/
def int64Min : Int := -(2 ^ 63)

/-- Upper bound of std::int64_t. -/
def int64Max : Int := 2 ^ 63 - 1

/-- Numeric value of a run of decimal digit characters. -/
def digitsToNat (l : List Char) : Nat :=
  l.foldl (fun acc c => acc * 10 + (c.toNat - 48)) 0

/-- Mirrors std::from_chars into std::int64_t: an optional minus sign then a
maximal non-empty digit run; no digits or an out-of-range value is an error.
Returns the parsed value and the number of characters consumed. -/
def fromCharsInt64 (s : List Char) : Option (Int × Nat) :=
  if s.head? = some '-' then
    let body := s.tail.takeWhile Char.isDigit
    if body = [] then none
    else
      let v : Int := -(digitsToNat body : Int)
      if v < int64Min then none else some (v, 1 + body.length)
  else
    let body := s.takeWhile Char.isDigit
    if body = [] then none
    else
      let v : Int := (digitsToNat body : Int)
      if int64Max < v then none else some (v, body.length)

/-- Mirrors the compiler parser state: remaining source plus the 1-based
line and column used in diagnostics. -/
structure PState where
  file : String
  source : List Char
  line : Nat := 1
  column : Nat := 1
  deriving Repr

/-- Mirrors parser::die: the fatal diagnostic, formatted
file:line:column: error: message. -/
def pDie {α : Type} (st : PState) (message : String) : Except String α :=
  .error (st.file ++ ":" ++ toString st.line ++ ":" ++ toString st.column ++
          ": error: " ++ message)

/-- Mirrors parser::advance: consume n characters, tracking line / column. -/
def pAdvance (st : PState) : Nat → PState
  | 0 => st
  | n + 1 =>
      match st.source with
      | [] => st
      | c :: rest =>
          pAdvance
            { st with
              source := rest,
              line := if c = '\n' then st.line + 1 else st.line,
              column := if c = '\n' then 1 else st.column + 1 } n

/-- Number of characters parser::skip_whitespace consumes once it has hit a
# comment: everything up to (but not including) the next newline. -/
def commentCount : List Char → Nat
  | [] => 0
  | c :: rest => if c = '\n' then 0 else 1 + commentCount rest

/-- Number of characters parser::skip_whitespace consumes: spaces, and a
# comment running to the end of the line. -/
def wsCount : List Char → Nat
  | [] => 0
  | c :: rest =>
      if c = ' ' then 1 + wsCount rest
      else if c = '#' then 1 + commentCount rest
      else 0

/-- Mirrors parser::skip_whitespace. -/
def skipWhitespace (st : PState) : PState := pAdvance st (wsCount st.source)

/-- Mirrors parser::peek: fatal on end of input. -/
def pPeek (st : PState) : Except String Char :=
  match st.source with
  | [] => pDie st "Unexpected end of input."
  | c :: _ => .ok c

/-- Mirrors parser::get. -/
def pGet (st : PState) : Except String (Char × PState) := do
  let c ← pPeek st
  pure (c, pAdvance st 1)

/-- Mirrors parser::eat. -/
def pEat (st : PState) (value : String) : Except String PState :=
  let st := skipWhitespace st
  if value.data.isPrefixOf st.source then .ok (pAdvance st value.length)
  else pDie st ("Expected " ++ As.cppQuoted value ++ ".")

/-- Mirrors parser::peek_name: skip whitespace, then view (without
consuming) the maximal alphanumeric run. -/
def peekName (st : PState) : String × PState :=
  let st := skipWhitespace st
  (String.mk (st.source.takeWhile Char.isAlphanum), st)

/-- Mirrors parser::consume_name. -/
def consumeName (st : PState) (value : String) : Bool × PState :=
  let (n, st) := peekName st
  if n = value then (true, pAdvance st value.length) else (false, st)

/-- Mirrors parser::eat_name. -/
def eatName (st : PState) (value : String) : Except String PState :=
  match consumeName st value with
  | (true, st) => .ok st
  | (false, st) => pDie st ("Expected " ++ As.cppQuoted value ++ ".")

/-- The characters the parser treats as symbol constituents. -/
def symbolChars : List Char := ['+', '-', '=', '<', '>', '!', '.', '&', '|']

/-- Mirrors parser::peek_symbol. -/
def peekSymbol (st : PState) : String × PState :=
  let st := skipWhitespace st
  (String.mk (st.source.takeWhile (fun c => c ∈ symbolChars)), st)

/-- Mirrors parser::consume_symbol. -/
def consumeSymbol (st : PState) (value : String) : Bool × PState :=
  let (n, st) := peekSymbol st
  if n = value then (true, pAdvance st value.length) else (false, st)

/-- Mirrors parser::eat_symbol. -/
def eatSymbol (st : PState) (value : String) : Except String PState :=
  match consumeSymbol st value with
  | (true, st) => .ok st
  | (false, st) => pDie st ("Expected " ++ As.cppQuoted value ++ ".")

/-- Mirrors parser::parse_newline: whitespace, then exactly one newline. -/
def parseNewline (st : PState) : Except String PState := do
  let st := skipWhitespace st
  let (c, st) ← pGet st
  if c = '\n' then pure st else pDie st "Expected newline."

/-- Mirrors parser::parse_integer (std::from_chars on std::int64_t). -/
def parseInteger (st : PState) : Except String (Int × PState) :=
  match fromCharsInt64 st.source with
  | none => pDie st "Expected numeric literal."
  | some (v, n) => .ok (v, pAdvance st n)

/-- The loop of parser::parse_string_literal, reading characters until the
closing quote and handling the three escapes. The fuel only bounds the
iteration count; callers pass more fuel than the source length. -/
def stringLitLoop : Nat → PState → List Char → Except String (List Char × PState)
  | 0, st, _ => pDie st "Unexpected end of input."
  | fuel + 1, st, acc => do
      let c ← pPeek st
      if c = '"' then
        pure (acc.reverse, st)
      else if c = '\\' then do
        let st := pAdvance st 1
        let c2 ← pPeek st
        if c2 = '\\' ∨ c2 = '"' then
          stringLitLoop fuel (pAdvance st 1) (c2 :: acc)
        else if c2 = 'n' then
          stringLitLoop fuel (pAdvance st 1) ('\n' :: acc)
        else
          pDie st "Invalid escape sequence."
      else
        stringLitLoop fuel (pAdvance st 1) (c :: acc)

/-- Mirrors parser::parse_string_literal. -/
def parseStringLiteral (st : PState) : Except String (String × PState) := do
  let st ← pEat st "\""
  let (chars, st) ← stringLitLoop (st.source.length + 1) st []
  pure (String.mk chars, pAdvance st 1)

/-- Mirrors parser::parse_literal. -/
def parseLiteral (st : PState) : Except String (Compiler.literal × PState) := do
  let st := skipWhitespace st
  match st.source with
  | [] => pDie st "Unexpected end of input."
  | c :: _ =>
      if c.isDigit then do
        let (v, st) ← parseInteger st
        pure (.int v, st)
      else if c = '"' then do
        let (s, st) ← parseStringLiteral st
        pure (.str s, st)
      else pDie st "Expected a literal value."

/-- Mirrors parser::parse_name. -/
def parseName (st : PState) : Except String (String × PState) := do
  let (n, st) := peekName st
  if n.length = 0 then pDie st "Expected name."
  else if n.data.head?.elim false Char.isDigit then
    pDie st "Names cannot start with numbers."
  else pure (n, pAdvance st n.length)

namespace Compiler

/-- The error used when the shared parser fuel runs out. It corresponds to
no source diagnostic; every concrete run below is given ample fuel. -/
def fuelError {α : Type} : Except String α := .error "PARSER FUEL EXHAUSTED"

mutual

/-- Mirrors parser::parse_term. -/
def parse_term : Nat → PState → Except String (expression × PState)
  | 0, _ => fuelError
  | fuel + 1, st => do
      let st := skipWhitespace st
      match st.source with
      | [] => pDie st "Unexpected end of input."
      | c :: _ =>
          if c = '"' ∨ c.isDigit then do
            let (l, st) ← parseLiteral st
            pure (.lit l, st)
          else if c = '(' then do
            let st ← pEat st "("
            let (result, st) ← parse_condition fuel st
            let st ← pEat st ")"
            pure (result, st)
          else do
            let (n, st) ← parseName st
            if n = "input" then pure (.input, st) else pure (.name n, st)

/-- Mirrors parser::parse_suffix (the loop handling [index] and (calls)). -/
def parse_suffix : Nat → PState → Except String (expression × PState)
  | 0, _ => fuelError
  | fuel + 1, st => do
      let (result, st) ← parse_term fuel st
      parse_suffix_loop fuel result st

/-- The while(true) loop inside parser::parse_suffix. -/
def parse_suffix_loop : Nat → expression → PState →
    Except String (expression × PState)
  | 0, _, _ => fuelError
  | fuel + 1, result, st => do
      let st := skipWhitespace st
      match st.source with
      | [] => pure (result, st)
      | c :: _ =>
          if c = '[' then do
            let st ← pEat st "["
            let (address, st) ← parse_expression fuel st
            let st ← pEat st "]"
            parse_suffix_loop fuel (.read (.add result address)) st
          else if c = '(' then do
            let st ← pEat st "("
            let c2 ← pPeek st
            if c2 = ')' then do
              let st ← pEat st ")"
              parse_suffix_loop fuel (.call result []) st
            else do
              let (first, st) ← parse_expression fuel st
              let st := skipWhitespace st
              let (args, st) ← parse_args_loop fuel [first] st
              let st ← pEat st ")"
              parse_suffix_loop fuel (.call result args) st
          else pure (result, st)

/-- The while(peek() != close-paren) loop collecting call arguments. -/
def parse_args_loop : Nat → List expression → PState →
    Except String (List expression × PState)
  | 0, _, _ => fuelError
  | fuel + 1, acc, st => do
      let c ← pPeek st
      if c = ')' then pure (acc, st)
      else do
        let st ← pEat st ","
        let (e, st) ← parse_expression fuel st
        parse_args_loop fuel (acc ++ [e]) st

/-- Mirrors parser::parse_prefix: dereference and unary minus. -/
def parse_unary : Nat → PState → Except String (expression × PState)
  | 0, _ => fuelError
  | fuel + 1, st => do
      let st := skipWhitespace st
      match st.source with
      | [] => pDie st "Unexpected end of input."
      | c :: _ =>
          if c = '*' then do
            let st ← pEat st "*"
            let (e, st) ← parse_unary fuel st
            pure (.read e, st)
          else if c = '-' then do
            let st ← pEat st "-"
            let (e, st) ← parse_unary fuel st
            pure (.sub (.lit (.int 0)) e, st)
          else parse_suffix fuel st

/-- Mirrors parser::parse_product. -/
def parse_product : Nat → PState → Except String (expression × PState)
  | 0, _ => fuelError
  | fuel + 1, st => do
      let (result, st) ← parse_unary fuel st
      parse_product_loop fuel result st

/-- The while(peek() == star) loop of parse_product; note that peek is
fatal at end of input, exactly as in the source. -/
def parse_product_loop : Nat → expression → PState →
    Except String (expression × PState)
  | 0, _, _ => fuelError
  | fuel + 1, result, st => do
      let c ← pPeek st
      if c = '*' then do
        let st ← pEat st "*"
        let (r, st) ← parse_unary fuel st
        parse_product_loop fuel (.mul result r) st
      else pure (result, st)

/-- Mirrors parser::parse_sum. -/
def parse_sum : Nat → PState → Except String (expression × PState)
  | 0, _ => fuelError
  | fuel + 1, st => do
      let (result, st) ← parse_product fuel st
      parse_sum_loop fuel result st

/-- The lookahead loop of parse_sum. -/
def parse_sum_loop : Nat → expression → PState →
    Except String (expression × PState)
  | 0, _, _ => fuelError
  | fuel + 1, result, st => do
      let lookahead ← pPeek st
      if lookahead = '+' then do
        let st ← pEat st "+"
        let (r, st) ← parse_product fuel st
        parse_sum_loop fuel (.add result r) st
      else if lookahead = '-' then do
        let st ← pEat st "-"
        let (r, st) ← parse_product fuel st
        parse_sum_loop fuel (.sub result r) st
      else pure (result, st)

/-- Mirrors parser::parse_expression. -/
def parse_expression : Nat → PState → Except String (expression × PState)
  | 0, _ => fuelError
  | fuel + 1, st => parse_sum fuel st

/-- Mirrors parser::parse_comparison (at most one comparison operator). -/
def parse_comparison : Nat → PState → Except String (expression × PState)
  | 0, _ => fuelError
  | fuel + 1, st => do
      let (left, st) ← parse_sum fuel st
      let st := skipWhitespace st
      match consumeSymbol st "<" with
      | (true, st) => do
          let (r, st) ← parse_expression fuel st
          pure (.less_than left r, st)
      | (false, st) =>
      match consumeSymbol st "==" with
      | (true, st) => do
          let (r, st) ← parse_expression fuel st
          pure (.equals left r, st)
      | (false, st) =>
      match consumeSymbol st ">" with
      | (true, st) => do
          let (r, st) ← parse_expression fuel st
          pure (greater_than left r, st)
      | (false, st) =>
      match consumeSymbol st "<=" with
      | (true, st) => do
          let (r, st) ← parse_expression fuel st
          pure (less_or_equal left r, st)
      | (false, st) =>
      match consumeSymbol st ">=" with
      | (true, st) => do
          let (r, st) ← parse_expression fuel st
          pure (greater_or_equal left r, st)
      | (false, st) =>
      match consumeSymbol st "!=" with
      | (true, st) => do
          let (r, st) ← parse_expression fuel st
          pure (not_equals left r, st)
      | (false, st) => pure (left, st)

/-- Mirrors parser::parse_conjunction. -/
def parse_conjunction : Nat → PState → Except String (expression × PState)
  | 0, _ => fuelError
  | fuel + 1, st => do
      let (left, st) ← parse_comparison fuel st
      parse_conjunction_loop fuel left st

/-- The while(consume_symbol) loop of parse_conjunction. -/
def parse_conjunction_loop : Nat → expression → PState →
    Except String (expression × PState)
  | 0, _, _ => fuelError
  | fuel + 1, left, st =>
      match consumeSymbol st "&&" with
      | (true, st) => do
          let (r, st) ← parse_comparison fuel st
          parse_conjunction_loop fuel (.logical_and left r) st
      | (false, st) => pure (left, st)

/-- Mirrors parser::parse_disjunction. -/
def parse_disjunction : Nat → PState → Except String (expression × PState)
  | 0, _ => fuelError
  | fuel + 1, st => do
      let (left, st) ← parse_conjunction fuel st
      parse_disjunction_loop fuel left st

/-- The while(consume_symbol) loop of parse_disjunction. -/
def parse_disjunction_loop : Nat → expression → PState →
    Except String (expression × PState)
  | 0, _, _ => fuelError
  | fuel + 1, left, st =>
      match consumeSymbol st "||" with
      | (true, st) => do
          let (r, st) ← parse_conjunction fuel st
          parse_disjunction_loop fuel (.logical_or left r) st
      | (false, st) => pure (left, st)

/-- Mirrors parser::parse_condition. -/
def parse_condition : Nat → PState → Except String (expression × PState)
  | 0, _ => fuelError
  | fuel + 1, st => parse_disjunction fuel st

end

mutual

/-- The declaration loop of parser::parse_var in declare_assign mode (the
statement-level instantiation). -/
def parse_var_loop : Nat → List statement → PState →
    Except String (List statement × PState)
  | 0, _, _ => fuelError
  | fuel + 1, acc, st => do
      let (id, st) ← parseName st
      let st := skipWhitespace st
      let c ← pPeek st
      let (acc, st) ←
        if c = '[' then do
          let st ← pEat st "["
          let (size, st) ← parse_expression fuel st
          let st ← pEat st "]"
          pure (acc ++ [statement.declare_array id size], st)
        else
          pure (acc ++ [statement.declare_scalar id], st)
      let (acc, st) ←
        (do
          let c ← pPeek st
          if c = '=' then do
            let st ← pEat st "="
            let (v, st) ← parse_expression fuel st
            let st := skipWhitespace st
            pure (acc ++ [statement.assign (.name id) v], st)
          else pure (acc, st))
      let c ← pPeek st
      if c ≠ ',' then pure (acc, st)
      else do
        let st ← pEat st ","
        parse_var_loop fuel acc st

/-- Mirrors parser::parse_var (statements, declare_assign mode). -/
def parse_var_statement : Nat → PState →
    Except String (List statement × PState)
  | 0, _ => fuelError
  | fuel + 1, st => do
      let st ← eatName st "var"
      let (acc, st) ← parse_var_loop fuel [] st
      let st ← pEat st ";"
      pure (acc, st)

/-- The declaration loop of parser::parse_constant. -/
def parse_constant_loop : Nat → List statement → PState →
    Except String (List statement × PState)
  | 0, _, _ => fuelError
  | fuel + 1, acc, st => do
      let (id, st) ← parseName st
      let st ← pEat st "="
      let (v, st) ← parse_expression fuel st
      let acc := acc ++ [statement.constant id v]
      let st := skipWhitespace st
      let c ← pPeek st
      if c ≠ ',' then pure (acc, st)
      else do
        let st ← pEat st ","
        parse_constant_loop fuel acc st

/-- Mirrors parser::parse_constant (statement-level instantiation). -/
def parse_constant_statement : Nat → PState →
    Except String (List statement × PState)
  | 0, _ => fuelError
  | fuel + 1, st => do
      let st ← eatName st "const"
      let (acc, st) ← parse_constant_loop fuel [] st
      let st ← pEat st ";"
      pure (acc, st)

/-- Mirrors parser::parse_if_statement. -/
def parse_if_statement : Nat → PState → Except String (statement × PState)
  | 0, _ => fuelError
  | fuel + 1, st => do
      let st ← eatName st "if"
      let (condition, st) ← parse_condition fuel st
      let st ← pEat st "\x7b"
      let st ← parseNewline st
      let (then_branch, st) ← parse_statements fuel st
      let st ← pEat st "\x7d"
      let st := skipWhitespace st
      match consumeName st "else" with
      | (true, st) =>
          let (w, st) := peekName st
          if w = "if" then do
            let (s, st) ← parse_if_statement fuel st
            pure (.if_statement condition then_branch [s], st)
          else do
            let st ← pEat st "\x7b"
            let st ← parseNewline st
            let (else_branch, st) ← parse_statements fuel st
            let st ← pEat st "\x7d"
            pure (.if_statement condition then_branch else_branch, st)
      | (false, st) =>
          pure (.if_statement condition then_branch [], st)

/-- Mirrors parser::parse_while_statement. -/
def parse_while_statement : Nat → PState → Except String (statement × PState)
  | 0, _ => fuelError
  | fuel + 1, st => do
      let st ← eatName st "while"
      let (condition, st) ← parse_condition fuel st
      let st ← pEat st "\x7b"
      let st ← parseNewline st
      let (body, st) ← parse_statements fuel st
      let st ← pEat st "\x7d"
      let st := skipWhitespace st
      pure (.while_statement condition body, st)

/-- Mirrors parser::parse_output_statement. -/
def parse_output_statement : Nat → PState → Except String (statement × PState)
  | 0, _ => fuelError
  | fuel + 1, st => do
      let st ← eatName st "output"
      let (value, st) ← parse_expression fuel st
      let st ← pEat st ";"
      pure (.output_statement value, st)

/-- Mirrors parser::parse_return_statement. -/
def parse_return_statement : Nat → PState → Except String (statement × PState)
  | 0, _ => fuelError
  | fuel + 1, st => do
      let st ← eatName st "return"
      let (value, st) ← parse_expression fuel st
      let st ← pEat st ";"
      pure (.return_statement value, st)

/-- Mirrors parser::parse_break_statement. -/
def parse_break_statement : Nat → PState → Except String (statement × PState)
  | 0, _ => fuelError
  | fuel + 1, st => do
      let st ← eatName st "break"
      let st ← pEat st ";"
      pure (.break_statement, st)

/-- Mirrors parser::parse_continue_statement, transcribed verbatim from the
source: it demands the word return (not continue) before the semicolon. -/
def parse_continue_statement : Nat → PState →
    Except String (statement × PState)
  | 0, _ => fuelError
  | fuel + 1, st => do
      let _ := fuel
      let st ← eatName st "return"
      let st ← pEat st ";"
      pure (.continue_statement, st)

/-- Mirrors parser::parse_halt_statement. -/
def parse_halt_statement : Nat → PState → Except String (statement × PState)
  | 0, _ => fuelError
  | fuel + 1, st => do
      let _ := fuel
      let st ← eatName st "halt"
      let st ← pEat st ";"
      pure (.halt_statement, st)

/-- Mirrors the parse_line lambda inside parser::parse_statements: it
yields the statements contributed by one line. -/
def parse_line : Nat → PState → Except String (List statement × PState)
  | 0, _ => fuelError
  | fuel + 1, st => do
      match st.source with
      | [] => pDie st "Unexpected end of input."
      | c :: _ => do
          let keyword ←
            (if c.isAlpha then do
              let (word, st1) := peekName st
              if word = "const" then do
                pure (some (← parse_constant_statement fuel st1))
              else if word = "var" then do
                pure (some (← parse_var_statement fuel st1))
              else if word = "if" then do
                let (s, st1) ← parse_if_statement fuel st1
                pure (some ([s], st1))
              else if word = "while" then do
                let (s, st1) ← parse_while_statement fuel st1
                pure (some ([s], st1))
              else if word = "output" then do
                let (s, st1) ← parse_output_statement fuel st1
                pure (some ([s], st1))
              else if word = "return" then do
                let (s, st1) ← parse_return_statement fuel st1
                pure (some ([s], st1))
              else if word = "break" then do
                let (s, st1) ← parse_break_statement fuel st1
                pure (some ([s], st1))
              else if word = "continue" then do
                let (s, st1) ← parse_continue_statement fuel st1
                pure (some ([s], st1))
              else if word = "halt" then do
                let (s, st1) ← parse_halt_statement fuel st1
                pure (some ([s], st1))
              else pure none
            else pure none)
          match keyword with
          | some r => pure r
          | none => do
              let (expr, st) ← parse_expression fuel st
              let st := skipWhitespace st
              match st.source with
              | '=' :: _ =>
                  if ¬ is_lvalue expr then
                    pDie st (exprToString expr ++ " is not an lvalue.")
                  else do
                    let st ← pEat st "="
                    let (value, st) ← parse_expression fuel st
                    let st ← pEat st ";"
                    pure ([statement.assign expr value], st)
              | _ =>
                  match expr with
                  | .call f args => do
                      let st ← pEat st ";"
                      pure ([statement.call f args], st)
                  | _ =>
                      pDie st
                        "Only call expressions can be performed as statements."

/-- The while loop of parser::parse_statements. -/
def parse_statements_loop : Nat → List statement → PState →
    Except String (List statement × PState)
  | 0, _, _ => fuelError
  | fuel + 1, acc, st => do
      match st.source with
      | [] => pure (acc, st)
      | c :: _ =>
          if c = '}' then pure (acc, st)
          else do
            let (stmts, st) ← parse_line fuel st
            let st ← pEat st "\n"
            let st := skipWhitespace st
            parse_statements_loop fuel (acc ++ stmts) st

/-- Mirrors parser::parse_statements. -/
def parse_statements : Nat → PState → Except String (List statement × PState)
  | 0, _ => fuelError
  | fuel + 1, st => do
      let st := skipWhitespace st
      parse_statements_loop fuel [] st

end

/-- Mirrors module_exports of codegen.cc. -/
structure module_exports where
  vars : List String := []
  constants : List (String × As.immediate) := []
  deriving Repr

/-- Mirrors struct context of codegen.cc: the label-factory counters, the
per-module export table, and the three output streams. -/
structure genContext where
  labels : List (String × Nat) := []
  modules : List (String × module_exports) := []
  text : List As.statement := []
  rodata : List As.statement := []
  data : List As.statement := []
  deriving Repr

/-- Mirrors the data members of module_context (imported_constants starts
with the built-in heapstart binding). -/
structure moduleContext where
  imported_variables : List String := []
  imported_constants : List (String × As.immediate) :=
    [("heapstart", As.immediate.name "heapstart")]
  vars : List String := []
  constants : List (String × As.immediate) := []
  deriving Repr

/-- Mirrors function_context::environment (one lexical scope frame). -/
structure envFrame where
  size : Int := 0
  vars : List (String × Int) := []
  constants : List (String × As.immediate) := []
  break_label : Option String := none
  continue_label : Option String := none
  deriving Repr

/-- Mirrors the data members of function_context; the scope stack keeps the
innermost frame at the head of the list (the vector's back). -/
structure functionContext where
  function_name : String
  arguments : List String := []
  scope : List envFrame := [{}]
  max_size : Int := 0
  deriving Repr

/-- The mutable state threaded through code generation: the shared context,
the enclosing module_context and the function_context. -/
structure GenState where
  ctx : genContext := {}
  mod : moduleContext := {}
  fc : functionContext
  deriving Repr

/-- Association-list update mirroring std::map operator[] assignment. -/
def mapUpdate {α : Type} : List (String × α) → String → α → List (String × α)
  | [], k, v => [(k, v)]
  | (k0, v0) :: rest, k, v =>
      if k0 = k then (k0, v) :: rest else (k0, v0) :: mapUpdate rest k v

/-- Association-list insert mirroring std::map::emplace: an existing key is
left untouched. -/
def mapEmplace {α : Type} (m : List (String × α)) (k : String) (v : α) :
    List (String × α) :=
  if (m.lookup k).isSome then m else m ++ [(k, v)]

/-- Mirrors context::label: an auto-incrementing counter per prefix. -/
def ctxLabel (st : GenState) (name : String) : String × GenState :=
  let id := (st.ctx.labels.lookup name).getD 0
  (name ++ toString id,
   { st with ctx := { st.ctx with
       labels := mapUpdate st.ctx.labels name (id + 1) } })

/-- Mirrors context::make_string: label an ascii block in rodata and hand
back a name pointing at its first cell. -/
def makeString (st : GenState) (value : String) : As.immediate × GenState :=
  let (addr, st) := ctxLabel st "string"
  (As.immediate.name addr,
   { st with ctx := { st.ctx with
       rodata := st.ctx.rodata ++
         [As.statement.label addr, As.statement.dir (.ascii value)] } })

/-- Append one statement to the text stream. -/
def pushText (st : GenState) (s : As.statement) : GenState :=
  { st with ctx := { st.ctx with text := st.ctx.text ++ [s] } }

/-- Mirrors function_context::variable_kind. -/
inductive variable_kind where
  | not_found
  | global_constant
  | global_variable
  | local_constant
  | local_variable
  | argument
  deriving Repr, DecidableEq

/-- The innermost-to-outermost frame scan inside function_context::lookup. -/
def scanFrames (n : String) : List envFrame → Option variable_kind
  | [] => none
  | f :: rest =>
      if (f.vars.lookup n).isSome then some .local_variable
      else if (f.constants.lookup n).isSome then some .local_constant
      else scanFrames n rest

/-- Mirrors function_context::lookup. -/
def lookupKind (st : GenState) (n : String) : variable_kind :=
  if st.fc.arguments.contains n then .argument
  else
    match scanFrames n st.fc.scope with
    | some k => k
    | none =>
        if st.mod.vars.contains n then .global_variable
        else if (st.mod.constants.lookup n).isSome then .global_constant
        else if st.mod.imported_variables.contains n then .global_variable
        else if (st.mod.imported_constants.lookup n).isSome then
          .global_constant
        else .not_found

/-- Mirrors function_context::has_local. -/
def has_local (st : GenState) (n : String) : Bool :=
  lookupKind st n = .local_variable ∨ lookupKind st n = .local_constant

/-- The frame scan of function_context::get_local_variable. -/
def findLocalSlot (n : String) : List envFrame → Option Int
  | [] => none
  | f :: rest =>
      match f.vars.lookup n with
      | some slot => some slot
      | none => findLocalSlot n rest

/-- Mirrors function_context::get_local_variable. -/
def get_local_variable (st : GenState) (n : String) :
    Except String As.output_param :=
  if st.fc.arguments.contains n then
    .ok ⟨none, .addr ⟨.name ("arg_" ++ st.fc.function_name ++ "_" ++ n)⟩⟩
  else
    match findLocalSlot n st.fc.scope with
    | some slot =>
        .ok ⟨none, .addr ⟨.name
          ("lv_" ++ st.fc.function_name ++ "_" ++ toString slot)⟩⟩
    | none =>
        .error ("Local variable " ++ As.cppQuoted n ++ " not found.")

/-- The frame scan of function_context::get_constant. -/
def findLocalConstant (n : String) : List envFrame → Option As.immediate
  | [] => none
  | f :: rest =>
      match f.constants.lookup n with
      | some v => some v
      | none => findLocalConstant n rest

/-- Mirrors function_context::get_constant; the final imported_constants
lookup uses map::at, whose missing-key exception terminates the process. -/
def get_constant (st : GenState) (n : String) : Except String As.immediate :=
  match findLocalConstant n st.fc.scope with
  | some v => .ok v
  | none =>
      match st.mod.constants.lookup n with
      | some v => .ok v
      | none =>
          match st.mod.imported_constants.lookup n with
          | some v => .ok v
          | none => .error "std::out_of_range in imported_constants.at"

/-- Mirrors function_context::define_scalar. -/
def define_scalar (st : GenState) (n : String) : GenState :=
  match st.fc.scope with
  | [] => st
  | current :: rest =>
      let current :=
        { current with vars := mapEmplace current.vars n current.size,
                       size := current.size + 1 }
      { st with fc := { st.fc with
          scope := current :: rest,
          max_size := if current.size > st.fc.max_size then current.size
                      else st.fc.max_size } }

/-- Mirrors function_context::define_array. -/
def define_array (st : GenState) (n : String) (size : Int) : GenState :=
  match st.fc.scope with
  | [] => st
  | current :: rest =>
      let label :=
        "lv_" ++ st.fc.function_name ++ "_" ++ toString current.size
      let current :=
        { current with
            constants :=
              mapEmplace current.constants n (As.immediate.name label),
            size := current.size + size }
      { st with fc := { st.fc with
          scope := current :: rest,
          max_size := if current.size > st.fc.max_size then current.size
                      else st.fc.max_size } }

/-- Mirrors function_context::define_constant. -/
def define_constant (st : GenState) (n : String) (v : As.immediate) :
    GenState :=
  match st.fc.scope with
  | [] => st
  | current :: rest =>
      { st with fc := { st.fc with
          scope :=
            { current with constants := mapEmplace current.constants n v }
              :: rest } }

/-- Mirrors function_context::push_scope: the new frame inherits the size
and loop labels of the current one. -/
def push_scope (st : GenState) : GenState :=
  match st.fc.scope with
  | [] => st
  | current :: _ =>
      { st with fc := { st.fc with
          scope :=
            { size := current.size,
              break_label := current.break_label,
              continue_label := current.continue_label } :: st.fc.scope } }

/-- Mirrors function_context::pop_scope. -/
def pop_scope (st : GenState) : GenState :=
  { st with fc := { st.fc with scope := st.fc.scope.tail } }

/-- Mirrors function_context::eval_expr (compile-time constant folding). -/
def eval_expr : expression → GenState → Except String (As.immediate × GenState)
  | .lit (.int x), st => .ok (.literal x, st)
  | .lit (.str x), st => .ok (makeString st x)
  | .name n, st => do
      let v ← get_constant st n
      pure (v, st)
  | .add a b, st => do
      let (l, st) ← eval_expr a st
      let (r, st) ← eval_expr b st
      match l, r with
      | .literal x, .literal y => pure (As.immediate.literal (x + y), st)
      | _, _ =>
          .error ("Cannot add " ++ exprToString a ++ " and " ++
                  exprToString b ++ " in a constant expression.")
  | .sub a b, st => do
      let (l, st) ← eval_expr a st
      let (r, st) ← eval_expr b st
      match l, r with
      | .literal x, .literal y => pure (As.immediate.literal (x - y), st)
      | _, _ =>
          .error ("Cannot subtract " ++ exprToString a ++ " from " ++
                  exprToString b ++ " in a constant expression.")
  | .mul a b, st => do
      let (l, st) ← eval_expr a st
      let (r, st) ← eval_expr b st
      match l, r with
      | .literal x, .literal y => pure (As.immediate.literal (x * y), st)
      | _, _ =>
          .error ("Cannot multiply " ++ exprToString a ++ " and " ++
                  exprToString b ++ " in a constant expression.")
  | x, _ =>
      .error ("Expression " ++ exprToString x ++
              " is not a constant expression.")

/-- Mirrors function_context::gen_addr(const name&). -/
def gen_addr_name (st : GenState) (n : String) :
    Except String (As.output_param × GenState) :=
  match lookupKind st n with
  | .not_found =>
      .error (As.cppQuoted n ++ " not found in function " ++
              As.cppQuoted st.fc.function_name ++ ".")
  | .global_constant | .local_constant =>
      .error ("Cannot use constant " ++ As.cppQuoted n ++
              " as an lvalue in function " ++
              As.cppQuoted st.fc.function_name ++ ".")
  | .global_variable => .ok (⟨none, .addr ⟨.name ("gv_" ++ n)⟩⟩, st)
  | .argument =>
      .ok (⟨none, .addr ⟨.name
            ("arg_" ++ st.fc.function_name ++ "_" ++ n)⟩⟩, st)
  | .local_variable => do
      let o ← get_local_variable st n
      pure (o, st)

/-- The zero input operand as::input_param(none, literal 0) used all over
the generator. -/
def inZero : As.input_param := ⟨none, .imm (.literal 0)⟩

mutual

/-- Mirrors function_context::gen_expr(const expression&). The fuel is an
artifact of the shallow embedding: the sub case re-dispatches on a freshly
built add/mul node, exactly as the source does, so the recursion is not
structural. Every concrete run below is given ample fuel. -/
def gen_expr : Nat → expression → GenState →
    Except String (As.input_param × GenState)
  | 0, _, _ => fuelError
  | fuel + 1, e, st =>
      match e with
      | .lit (.int x) => .ok (⟨none, .imm (.literal x)⟩, st)
      | .lit (.str x) =>
          let (i, st) := makeString st x
          .ok (⟨none, .imm i⟩, st)
      | .name n =>
          match lookupKind st n with
          | .not_found =>
              .error (As.cppQuoted n ++ " not found in function " ++
                      As.cppQuoted st.fc.function_name ++ ".")
          | .global_constant | .local_constant => do
              let v ← get_constant st n
              pure (⟨none, .imm v⟩, st)
          | .global_variable => .ok (⟨none, .addr ⟨.name ("gv_" ++ n)⟩⟩, st)
          | .argument =>
              .ok (⟨none, .addr ⟨.name
                    ("arg_" ++ st.fc.function_name ++ "_" ++ n)⟩⟩, st)
          | .local_variable => do
              let o ← get_local_variable st n
              pure (As.input_param.ofOutput o, st)
      | .call f args => do
          let n := args.length
          let (callee, st) ← gen_expr fuel f st
          let (callee, st) ←
            match callee.label with
            | none =>
                let (out, st) := ctxLabel st "callee"
                let st := pushText st (.instr (.add
                  ⟨inZero, callee, ⟨none, .addr ⟨.name out⟩⟩⟩))
                pure ((⟨some out, .imm (.literal 0)⟩ : As.input_param), st)
            | some _ => pure (callee, st)
          match callee.label with
          | none => .error "unreachable: callee was just labelled"
          | some callee_label => do
            let get_callee : As.input_param :=
              ⟨none, .addr ⟨.name callee_label⟩⟩
            let (args_label, st) := ctxLabel st "args"
            let st := pushText st (.instr (.add
              ⟨get_callee, ⟨none, .imm (.literal (-((n : Int) + 2)))⟩,
               ⟨none, .addr ⟨.name args_label⟩⟩⟩))
            let st := pushText st (.instr (.adjust_relative_base
              ⟨some args_label, .imm (.literal 0)⟩))
            let st ← gen_call_args fuel args 0 st
            let (output_label, st) := ctxLabel st "return"
            let st := pushText st (.instr (.add
              ⟨inZero, ⟨none, .imm (.name output_label)⟩,
               ⟨none, .rel ⟨.literal (n : Int)⟩⟩⟩))
            let (return_label, st) := ctxLabel st "call"
            let st := pushText st (.instr (.add
              ⟨inZero, ⟨none, .imm (.name return_label)⟩,
               ⟨none, .rel ⟨.literal ((n : Int) + 1)⟩⟩⟩))
            let (args2, st) := ctxLabel st "revertargs"
            let st := pushText st (.instr (.mul
              ⟨⟨none, .addr ⟨.name args_label⟩⟩,
               ⟨none, .imm (.literal (-1))⟩,
               ⟨none, .addr ⟨.name args2⟩⟩⟩))
            let st := pushText st (.instr (.adjust_relative_base
              ⟨some args2, .imm (.literal 0)⟩))
            let st := pushText st (.instr (.jump_if_false ⟨inZero, callee⟩))
            let st := pushText st (.label return_label)
            pure ((⟨some output_label, .imm (.literal 0)⟩ : As.input_param),
                  st)
      | .add a b => do
          let (l, st) ← gen_expr fuel a st
          let (r, st) ← gen_expr fuel b st
          let (result, st) := ctxLabel st "add"
          let st := pushText st (.instr (.add
            ⟨l, r, ⟨none, .addr ⟨.name result⟩⟩⟩))
          pure ((⟨some result, .imm (.literal 0)⟩ : As.input_param), st)
      | .mul a b => do
          let (l, st) ← gen_expr fuel a st
          let (r, st) ← gen_expr fuel b st
          let (result, st) := ctxLabel st "mul"
          let st := pushText st (.instr (.mul
            ⟨l, r, ⟨none, .addr ⟨.name result⟩⟩⟩))
          pure ((⟨some result, .imm (.literal 0)⟩ : As.input_param), st)
      | .sub a b =>
          gen_expr fuel (.add a (.mul b (.lit (.int (-1))))) st
      | .less_than a b => do
          let (l, st) ← gen_expr fuel a st
          let (r, st) ← gen_expr fuel b st
          let (result, st) := ctxLabel st "lt"
          let st := pushText st (.instr (.less_than
            ⟨l, r, ⟨none, .addr ⟨.name result⟩⟩⟩))
          pure ((⟨some result, .imm (.literal 0)⟩ : As.input_param), st)
      | .equals a b => do
          let (l, st) ← gen_expr fuel a st
          let (r, st) ← gen_expr fuel b st
          let (result, st) := ctxLabel st "eq"
          let st := pushText st (.instr (.equals
            ⟨l, r, ⟨none, .addr ⟨.name result⟩⟩⟩))
          pure ((⟨some result, .imm (.literal 0)⟩ : As.input_param), st)
      | .input =>
          let (result, st) := ctxLabel st "input"
          let st := pushText st (.instr (.input
            ⟨none, .addr ⟨.name result⟩⟩))
          .ok ((⟨some result, .imm (.literal 0)⟩ : As.input_param), st)
      | .read r => do
          let (o, st) ← gen_addr_read fuel r st
          pure (As.input_param.ofOutput o, st)
      | .logical_and a b => do
          let (result, st) := ctxLabel st "and"
          let (short_circuit, st) := ctxLabel st "andfalse"
          let (endl, st) := ctxLabel st "andend"
          let one : As.input_param := ⟨none, .imm (.literal 1)⟩
          let st := pushText st (.instr (.add
            ⟨inZero, one, ⟨none, .addr ⟨.name result⟩⟩⟩))
          let (l, st) ← gen_expr fuel a st
          let st := pushText st (.instr (.jump_if_false
            ⟨l, ⟨none, .imm (.name short_circuit)⟩⟩))
          let (r, st) ← gen_expr fuel b st
          let st := pushText st (.instr (.jump_if_true
            ⟨r, ⟨none, .imm (.name endl)⟩⟩))
          let st := pushText st (.label short_circuit)
          let st := pushText st (.instr (.add
            ⟨inZero, inZero, ⟨none, .addr ⟨.name result⟩⟩⟩))
          let st := pushText st (.label endl)
          pure ((⟨some result, .imm (.literal 0)⟩ : As.input_param), st)
      | .logical_or a b => do
          let (result, st) := ctxLabel st "or"
          let (short_circuit, st) := ctxLabel st "ortrue"
          let (endl, st) := ctxLabel st "orend"
          let one : As.input_param := ⟨none, .imm (.literal 1)⟩
          let st := pushText st (.instr (.add
            ⟨inZero, inZero, ⟨none, .addr ⟨.name result⟩⟩⟩))
          let (l, st) ← gen_expr fuel a st
          let st := pushText st (.instr (.jump_if_true
            ⟨l, ⟨none, .imm (.name short_circuit)⟩⟩))
          let (r, st) ← gen_expr fuel b st
          let st := pushText st (.instr (.jump_if_false
            ⟨r, ⟨none, .imm (.name endl)⟩⟩))
          let st := pushText st (.label short_circuit)
          let st := pushText st (.instr (.add
            ⟨inZero, one, ⟨none, .addr ⟨.name result⟩⟩⟩))
          let st := pushText st (.label endl)
          pure ((⟨some result, .imm (.literal 0)⟩ : As.input_param), st)

/-- The argument loop of function_context::gen_expr(const call&). -/
def gen_call_args : Nat → List expression → Nat → GenState →
    Except String GenState
  | 0, _, _, _ => fuelError
  | _ + 1, [], _, st => .ok st
  | fuel + 1, a :: rest, i, st => do
      let (param, st) ← gen_expr fuel a st
      let st := pushText st (.instr (.add
        ⟨inZero, param, ⟨none, .rel ⟨.literal (i : Int)⟩⟩⟩))
      gen_call_args fuel rest (i + 1) st

/-- Mirrors function_context::gen_addr(const read&): compute the address,
spill it into the cell labelled readN, and hand back an address-mode operand
whose own cell carries that label so the spill patches it. -/
def gen_addr_read : Nat → expression → GenState →
    Except String (As.output_param × GenState)
  | 0, _, _ => fuelError
  | fuel + 1, address, st => do
      let (value, st) ← gen_expr fuel address st
      let (label, st) := ctxLabel st "read"
      let st := pushText st (.instr (.add
        ⟨inZero, value, ⟨none, .addr ⟨.name label⟩⟩⟩))
      pure ((⟨some label, .addr ⟨.literal 0⟩⟩ : As.output_param), st)

/-- Mirrors function_context::gen_addr(const expression&). -/
def gen_addr : Nat → expression → GenState →
    Except String (As.output_param × GenState)
  | 0, _, _ => fuelError
  | fuel + 1, e, st =>
      match e with
      | .name n => gen_addr_name st n
      | .read r => gen_addr_read fuel r st
      | x =>
          .error ("Cannot use expression " ++ exprToString x ++
                  " as lvalue in function " ++
                  As.cppQuoted st.fc.function_name ++ ".")

/-- Mirrors function_context::gen_stmt(const statement&). -/
def gen_stmt : Nat → statement → GenState → Except String GenState
  | 0, _, _ => fuelError
  | fuel + 1, s, st =>
      match s with
      | .constant n value =>
          if has_local st n then
            .error ("Multiple definitions for " ++ As.cppQuoted n ++
                    " in function " ++ As.cppQuoted st.fc.function_name ++
                    ".")
          else do
            let (v, st) ← eval_expr value st
            pure (define_constant st n v)
      | .call f args => do
          let (value, st) ← gen_expr fuel (.call f args) st
          let (self, st) := ctxLabel st "ignore"
          let zero : As.input_param := ⟨some self, .imm (.literal 0)⟩
          let out : As.output_param := ⟨none, .addr ⟨.name self⟩⟩
          pure (pushText st (.instr (.add ⟨value, zero, out⟩)))
      | .declare_scalar n =>
          if has_local st n then
            .error ("Multiple definitions for " ++ As.cppQuoted n ++
                    " in function " ++ As.cppQuoted st.fc.function_name ++
                    ".")
          else pure (define_scalar st n)
      | .declare_array n size =>
          if has_local st n then
            .error ("Multiple definitions for " ++ As.cppQuoted n ++
                    " in function " ++ As.cppQuoted st.fc.function_name ++
                    ".")
          else do
            let (v, st) ← eval_expr size st
            match v with
            | .literal k => pure (define_array st n k)
            | _ => .error "Array size is not a compile-time constant."
      | .assign left right => do
          let (value, st) ← gen_expr fuel right st
          let (address, st) ← gen_addr fuel left st
          pure (pushText st (.instr (.add
            ⟨⟨none, .imm (.literal 0)⟩, value, address⟩)))
      | .add_assign left right => do
          let (value, st) ← gen_expr fuel right st
          let (address, st) ← gen_addr fuel left st
          pure (pushText st (.instr (.add
            ⟨As.input_param.ofOutput address, value,
             ⟨none, address.output⟩⟩)))
      | .if_statement condition then_branch else_branch => do
          let (cond, st) ← gen_expr fuel condition st
          let (end_if, st) := ctxLabel st "endif"
          let (else_label, st) :=
            if else_branch.isEmpty then (end_if, st)
            else ctxLabel st "else"
          let st := pushText st (.instr (.jump_if_false
            ⟨cond, ⟨none, .imm (.name else_label)⟩⟩))
          let st ← gen_stmts fuel then_branch st
          let st ←
            if else_branch.isEmpty then pure st
            else do
              let st := pushText st (.instr (.jump_if_false
                ⟨⟨none, .imm (.literal 0)⟩,
                 ⟨none, .imm (.name end_if)⟩⟩))
              let st := pushText st (.label else_label)
              gen_stmts fuel else_branch st
          pure (pushText st (.label end_if))
      | .while_statement condition body => do
          let st := push_scope st
          let (while_start, st) := ctxLabel st "whilestart"
          let (while_cond, st) := ctxLabel st "whilecond"
          let (while_end, st) := ctxLabel st "whileend"
          let st :=
            match st.fc.scope with
            | [] => st
            | current :: rest =>
                { st with fc := { st.fc with scope :=
                    { current with break_label := some while_end,
                                   continue_label := some while_cond }
                      :: rest } }
          let st := pushText st (.instr (.jump_if_false
            ⟨⟨none, .imm (.literal 0)⟩,
             ⟨none, .imm (.name while_cond)⟩⟩))
          let st := pushText st (.label while_start)
          let st ← gen_stmts fuel body st
          let st := pushText st (.label while_cond)
          let (cond, st) ← gen_expr fuel condition st
          let st := pushText st (.instr (.jump_if_true
            ⟨cond, ⟨none, .imm (.name while_start)⟩⟩))
          let st := pushText st (.label while_end)
          pure (pop_scope st)
      | .output_statement value => do
          let (v, st) ← gen_expr fuel value st
          pure (pushText st (.instr (.output v)))
      | .return_statement value => do
          let (output_label, st) := ctxLabel st "output"
          let zero : As.input_param := ⟨none, .imm (.literal 0)⟩
          let output_address : As.input_param :=
            ⟨none, .addr ⟨.name
              ("func_" ++ st.fc.function_name ++ "_output")⟩⟩
          let temp : As.output_param := ⟨none, .addr ⟨.name output_label⟩⟩
          let st := pushText st (.instr (.add ⟨zero, output_address, temp⟩))
          let outputp : As.output_param :=
            ⟨some output_label, .addr ⟨.literal 0⟩⟩
          let (v, st) ← gen_expr fuel value st
          let st := pushText st (.instr (.add ⟨zero, v, outputp⟩))
          let return_address : As.input_param :=
            ⟨none, .addr ⟨.name
              ("func_" ++ st.fc.function_name ++ "_return")⟩⟩
          pure (pushText st (.instr (.jump_if_false ⟨zero, return_address⟩)))
      | .break_statement =>
          match st.fc.scope.head?.bind envFrame.break_label with
          | none =>
              .error ("Illegal break statement in function " ++
                      As.cppQuoted st.fc.function_name ++ ".")
          | some lbl =>
              let break_target : As.input_param := ⟨none, .imm (.name lbl)⟩
              let zero : As.input_param := ⟨none, .imm (.literal 0)⟩
              pure (pushText st (.instr (.jump_if_false
                ⟨zero, break_target⟩)))
      | .continue_statement =>
          match st.fc.scope.head?.bind envFrame.continue_label with
          | none =>
              .error ("Illegal continue statement in function " ++
                      As.cppQuoted st.fc.function_name ++ ".")
          | some lbl =>
              let zero : As.input_param := ⟨none, .imm (.literal 0)⟩
              let continue_target : As.input_param :=
                ⟨none, .imm (.name lbl)⟩
              pure (pushText st (.instr (.jump_if_false
                ⟨zero, continue_target⟩)))
      | .halt_statement =>
          pure (pushText st (.instr .halt))

/-- Mirrors function_context::gen_stmts: a fresh scope around the list. -/
def gen_stmts : Nat → List statement → GenState → Except String GenState
  | 0, _, _ => fuelError
  | fuel + 1, statements, st => do
      let st := push_scope st
      let st ← gen_stmts_loop fuel statements st
      pure (pop_scope st)

/-- The statement loop inside gen_stmts. -/
def gen_stmts_loop : Nat → List statement → GenState → Except String GenState
  | 0, _, _ => fuelError
  | _ + 1, [], st => .ok st
  | fuel + 1, s :: rest, st => do
      let st ← gen_stmt fuel s st
      gen_stmts_loop fuel rest st

end

/-- Mirrors compiler::declaration (module-level declarations). -/
inductive declaration where
  | constant (name : String) (value : expression)
  | declare_scalar (name : String)
  | declare_array (name : String) (size : expression)
  | function_definition (name : String) (parameters : List String)
      (body : List statement)
  deriving Repr

/-- Mirrors compiler::import_statement: the dotted module path. -/
structure import_statement where
  name : List String
  deriving Repr, DecidableEq

/-- Mirrors import_statement::resolve: append each part to the context path
with a separator and add the source extension. -/
def import_statement.resolve (i : import_statement) (context : String) :
    String :=
  (i.name.foldl
    (fun acc part => if acc = "" then part else acc ++ "/" ++ part)
    context) ++ ".is"

/-- Mirrors compiler::module (named cmodule because module is reserved). -/
structure cmodule where
  name : String
  imports : List import_statement := []
  body : List declaration := []
  deriving Repr

/-- Mirrors module::context(): the parent directory of the module name
(everything before the final path separator, empty when there is none). -/
def cmodule.context (m : cmodule) : String :=
  match m.name.data.reverse.dropWhile (fun c => ¬ (c = '/')) with
  | [] => ""
  | _ :: rest => String.mk rest.reverse

/-- One full scan over the outstanding set inside dependency_order: modules
whose (resolved) imports are no longer outstanding are moved to the output;
the membership test consults the current (partially erased) set, exactly as
the C++ iterator-erase loop does. The only failure (none) is modules.at
throwing on a key that is not in the map. -/
def depScan (modules : List (String × cmodule)) :
    List String → List String → List String →
    Option (List String × List String)
  | kept, out, [] => some (kept, out)
  | kept, out, m :: rest =>
      match modules.lookup m with
      | none => none
      | some md =>
          let context := md.context
          let current := kept ++ (m :: rest)
          let ready := md.imports.all
            (fun dependency => ¬ current.contains (dependency.resolve context))
          if ready then depScan modules kept (out ++ [m]) rest
          else depScan modules (kept ++ [m]) out rest

/-- The while(!outstanding.empty()) loop of dependency_order, bounded by
fuel: none means the modelled run was still looping (the C++ loop has no
cycle check and simply keeps scanning). -/
def dependency_order_loop (modules : List (String × cmodule)) :
    Nat → List String → List String → Option (List String)
  | 0, outstanding, out => if outstanding = [] then some out else none
  | fuel + 1, outstanding, out =>
      if outstanding = [] then some out
      else
        match depScan modules [] out outstanding with
        | none => none
        | some (outstanding, out) =>
            dependency_order_loop modules fuel outstanding out

/-- Mirrors compiler::dependency_order; the outstanding set starts as the
key set of the module map (callers pass it sorted, as std::map iterates). -/
def dependency_order (modules : List (String × cmodule)) (fuel : Nat) :
    Option (List String) :=
  dependency_order_loop modules fuel (modules.map Prod.fst) []

end Compiler

namespace Intcode

/-- Mirrors is_space of util/io.cc (the blank class of its type_map). -/
def io_is_space (c : Char) : Bool :=
  c = ' ' ∨ c = '\x0c' ∨ c = '\n' ∨ c = '\r' ∨ c = '\t' ∨ c = '\x0b'

/-- Mirrors scanner::operator>>(whitespace_type). -/
def skipIoSpace (s : List Char) : List Char := s.dropWhile io_is_space

/-- Mirrors scanner::operator>> into an int64: skip whitespace, then
std::from_chars. -/
def scanInt64 (s : List Char) : Option (Int × List Char) :=
  match fromCharsInt64 (skipIoSpace s) with
  | none => none
  | some (v, n) => some (v, (skipIoSpace s).drop n)

/-- Mirrors scanner >> exact(a comma): skip whitespace, then demand that
the remaining text starts with the comma and advance past it. -/
def scanComma (s : List Char) : Option (List Char) :=
  if (skipIoSpace s).head? = some ',' then some (skipIoSpace s).tail
  else none

/-- Mirrors scanner::done: only whitespace remains. -/
def scanDone (s : List Char) : Bool := (skipIoSpace s).isEmpty

/-- The while(!scanner.done()) loop of program::load: each further value
must be preceded by a comma, and the check n < buffer.size() traps once the
buffer (of program::max_size cells) is full. -/
def load_loop (bufferSize : Nat) (n : Nat) (acc : List Int)
    (s : List Char) : Option (List Int) :=
  if scanDone s then some acc
  else if n < bufferSize then
    match hc : scanComma s with
    | none => none
    | some s1 =>
        match hi : scanInt64 s1 with
        | none => none
        | some (v, s2) =>
            load_loop bufferSize (n + 1) (acc ++ [v]) s2
  else none
termination_by s.length
decreasing_by
  have hcomma : s1.length < s.length := by
    unfold scanComma at hc
    have hle : (skipIoSpace s).length ≤ s.length :=
      (List.dropWhile_suffix io_is_space).sublist.length_le
    split at hc
    · rename_i hhead
      cases hc
      have hpos : 0 < (skipIoSpace s).length := by
        cases hs : skipIoSpace s with
        | nil => rw [hs] at hhead; simp at hhead
        | cons a t => simp [hs]
      have := List.length_tail (skipIoSpace s)
      omega
    · cases hc
  have hint : s2.length ≤ s1.length := by
    unfold scanInt64 at hi
    have hle : (skipIoSpace s1).length ≤ s1.length :=
      (List.dropWhile_suffix io_is_space).sublist.length_le
    rcases hfc : fromCharsInt64 (skipIoSpace s1) with _ | ⟨w, k⟩ <;>
      rw [hfc] at hi
    · cases hi
    · cases hi
      calc ((skipIoSpace s1).drop k).length ≤ (skipIoSpace s1).length := by
            simp
        _ ≤ s1.length := hle
  omega

/-- Mirrors program::load: check(!buffer.empty()), read the first value
(its scanner error is fatal), then the comma-separated tail. -/
def program_load (source : String) (bufferSize : Nat) : Option (List Int) :=
  if bufferSize = 0 then none
  else
    match scanInt64 source.data with
    | none => none
    | some (v, rest) => load_loop bufferSize 1 [v] rest

/-- The buffer size every caller passes to program::load
(program::max_size). -/
def max_size : Nat := 5000

/-- Decimal rendering of a natural number (used to build canonical
comma-separated intcode texts in the theorems below). -/
def renderNat (n : Nat) : List Char :=
  if h : n < 10 then [Char.ofNat (48 + n)]
  else renderNat (n / 10) ++ [Char.ofNat (48 + n % 10)]
decreasing_by exact Nat.div_lt_self (by omega) (by omega)

/-- Decimal rendering of an integer. -/
def renderInt (v : Int) : List Char :=
  if v < 0 then '-' :: renderNat (-v).toNat else renderNat v.toNat

/-- The canonical comma-separated rendering of a list of integers: exactly
the intcode file format of 6.2 with no whitespace. -/
def renderInts : List Int → List Char
  | [] => []
  | [v] => renderInt v
  | v :: rest => renderInt v ++ ',' :: renderInts rest

/-- The rendering of the tail of a comma-separated integer list: a comma
before each further value. -/
def renderTail : List Int → List Char
  | [] => []
  | v :: rest => ',' :: (renderInt v ++ renderTail rest)

/-- Spec-side formalization of claim C6's validity condition on a head
value, phrased through its decimal digits: the last two digits are a known
opcode, the three mode digits are each 0, 1 or 2, no nonzero digits remain
above them, and no write destination (the third operand of
Add/Mul/LessThan/Equals, or the operand of Input) is in immediate mode. -/
def valid_head (x : Nat) : Bool :=
  is_opcode (x % 100) && is_mode (x / 100 % 10) && is_mode (x / 1000 % 10) &&
  is_mode (x / 10000 % 10) && (x / 100000 == 0) &&
  (match opcode.fromCode (x % 100) with
   | .add | .mul | .less_than | .equals => !(x / 10000 % 10 == 1)
   | .input => !(x / 100 % 10 == 1)
   | _ => true)

/-- Spec-side formalization of the op claim C6 expects a valid head value
to decode to: the opcode named by the last two digits with the three mode
digits as parameter modes. -/
def spec_op (x : Nat) : op :=
  { code := opcode.fromCode (x % 100),
    p0 := mode.fromDigit (x / 100 % 10),
    p1 := mode.fromDigit (x / 1000 % 10),
    p2 := mode.fromDigit (x / 10000 % 10) }

end Intcode

namespace Examples

/-- A fully resolved calculation: immediate 11, relative 22, address 33. -/
def cAdd : As.calculation :=
  { a := { label := none, input := .imm (.literal 11) },
    b := { label := none, input := .rel { value := .literal 22 } },
    out := { label := none, output := .addr { value := .literal 33 } } }

/-- A VM whose head instruction is add with two immediate operands
(1101): add 2 + 3 into cell 5. -/
def p1101 : Intcode.program := { memory := Intcode.memOfProgram [1101, 2, 3, 5] }

/-- A VM whose head cell holds the in-range but invalid value 11101
(immediate destination for add). -/
def pBad : Intcode.program :=
  { memory := Intcode.memOfProgram [11101, 2, 3, 5] }

/-- A VM whose head cell holds a value beyond the decode table. -/
def pHuge : Intcode.program := { memory := Intcode.memOfProgram [123456] }

/-- A VM about to execute an input instruction targeting cell 9. -/
def pInput : Intcode.program := { memory := Intcode.memOfProgram [3, 9, 99] }

/-- A VM about to output the immediate 7. -/
def pOutput : Intcode.program :=
  { memory := Intcode.memOfProgram [104, 7, 99] }

/-- The example input program once resume has suspended on its input
instruction (destination cell 9 recorded). -/
def qWait : Intcode.program :=
  { state := .waiting_for_input, input_address := 9,
    memory := Intcode.memOfProgram [3, 9, 99] }

/-- The example output program once resume has suspended with pending
output 7. -/
def qOut : Intcode.program :=
  { state := .output, output_value := 7,
    memory := Intcode.memOfProgram [104, 7, 99] }

/-- The source text of a while loop whose body is a continue statement. -/
def continueSource : PState :=
  { file := "test.is", source := "while 1 \x7b\ncontinue;\n\x7d\n".data }

/-- The same loop with break instead of continue. -/
def breakSource : PState :=
  { file := "test.is", source := "while 1 \x7b\nbreak;\n\x7d\n".data }

/-- A code-generation state inside a while loop of function f (the loop
labels of gen_stmt(while_statement) are in scope). -/
def loopState : Compiler.GenState :=
  { fc := { function_name := "f",
            scope := [{ break_label := some "whileend0",
                        continue_label := some "whilecond0" }] } }

/-- An assembly program binding foo only through a .define directive and
referencing it as an instruction operand. -/
def defineExample : List As.statement :=
  [.dir (.define "foo" ⟨none, .imm (.literal 42)⟩),
   .instr (.output ⟨none, .imm (.name "foo")⟩)]

/-- Two .define directives binding the same name. -/
def dupDefineExample : List As.statement :=
  [.dir (.define "foo" ⟨none, .imm (.literal 1)⟩),
   .dir (.define "foo" ⟨none, .imm (.literal 2)⟩)]

/-- Two modules importing each other (keys and resolved imports are the
filesystem paths the module loader would produce). -/
def cyclicModules : List (String × Compiler.cmodule) :=
  [("a.is", { name := "a.is", imports := [⟨["b"]⟩] }),
   ("b.is", { name := "b.is", imports := [⟨["a"]⟩] })]

/-- An acyclic pair of modules: a.is imports b.is. -/
def acyclicModules : List (String × Compiler.cmodule) :=
  [("a.is", { name := "a.is", imports := [⟨["b"]⟩] }),
   ("b.is", { name := "b.is" })]

/-- A fresh code-generation state for a function named f with no globals. -/
def fState : Compiler.GenState := { fc := { function_name := "f" } }

/-- A state for function f in a module with a global variable x. -/
def gvState : Compiler.GenState :=
  { fc := { function_name := "f" }, mod := { vars := ["x"] } }

/-- A state for function f in a module with a global constant n = 5. -/
def globalNState : Compiler.GenState :=
  { fc := { function_name := "f" },
    mod := { constants := [("n", As.immediate.literal 5)] } }

/-- A state of function f inside a nested block: the innermost frame is
empty and the enclosing frame binds the local constant n. -/
def shadowState : Compiler.GenState :=
  { fc := { function_name := "f",
            scope := [{}, { constants := [("n", As.immediate.literal 1)] }] } }

/-- The encoded image of the add_assign-through-pointer statement of C8. -/
def addAssignProgram : Intcode.program :=
  { memory := Intcode.memOfProgram [1101, 0, 100, 5, 1001, 0, 7, 0] }

end Examples

/-- Claim C3: the spec says the parser accepts a continue statement inside
a while loop as a Continue node and the generator lowers it to an
unconditional jz to the loop's condition label. The generator half holds,
but parse_continue_statement demands the word return, so the parser dies
with Expected "return" on every continue statement; break in the same
position parses fine. -/
theorem C3_continue_statement :
    Compiler.parse_statements 100 Examples.continueSource =
      .error "test.is:2:1: error: Expected \"return\"." ∧
    (Compiler.parse_statements 100 Examples.breakSource).map
        (fun r => r.1) = .ok [.while_statement (.lit (.int 1))
          [.break_statement]] ∧
    (Compiler.gen_stmt 10 .continue_statement Examples.loopState).map
        (fun st => st.ctx.text) =
      .ok [.instr (.jump_if_false
        ⟨⟨none, .imm (.literal 0)⟩, ⟨none, .imm (.name "whilecond0")⟩⟩)] := by
  refine ⟨rfl, rfl, rfl⟩

/-- Claim C4: the spec says a name bound only by a .define directive and
referenced as an instruction operand is substituted from the macros map
rather than reported undefined, with duplicates in either map fatal. Pass 1
does collect the define (and duplicate defines are fatal), but the resolver
only consults the constants map, so the reference is a fatal undefined-name
error instead of a substitution. -/
theorem C4_define_not_substituted :
    As.buildEnvironment Examples.defineExample =
      .ok { constants := [],
            defs := [("foo", ⟨none, .imm (.literal 42)⟩)] } ∧
    As.encode Examples.defineExample = .error "Undefined name \"foo\"." ∧
    As.encode Examples.dupDefineExample =
      .error "Duplicate definition for \"foo\"." := by
  refine ⟨rfl, rfl, rfl⟩

/-- One scan over the cyclic two-module example removes nothing: each
module's import still names the other, so neither is ready. -/
theorem depScan_cyclic_fixed (out : List String) :
    Compiler.depScan Examples.cyclicModules [] out ["a.is", "b.is"] =
      some (["a.is", "b.is"], out) := rfl

/-- Claim C5: the spec says a cyclic import graph makes the topological
sort fail with a fatal link error rather than running forever. The loop in
dependency_order has no such check: on the two-module cycle it makes no
progress and iterates forever (none for every fuel bound), while the
acyclic variant terminates with the topological order. -/
theorem C5_cycle_spins_forever :
    (∀ fuel : Nat,
       Compiler.dependency_order Examples.cyclicModules fuel = none) ∧
    Compiler.dependency_order Examples.acyclicModules 50 =
      some ["b.is", "a.is"] := by
  constructor
  · intro fuel
    show Compiler.dependency_order_loop Examples.cyclicModules fuel
      ["a.is", "b.is"] [] = none
    suffices h : ∀ fuel out,
        Compiler.dependency_order_loop Examples.cyclicModules fuel
          ["a.is", "b.is"] out = none from h fuel []
    intro fuel
    induction fuel with
    | zero => intro out; rfl
    | succ k ih =>
        intro out
        rw [Compiler.dependency_order_loop]
        simp only [depScan_cyclic_fixed]
        exact ih out
  · rfl

/-- Claim C8: the spec says x += e both reads and writes the single cell
denoted by the lvalue's address for all three lvalue shapes. For a plain
variable the emitted add does read and write that cell, but for a
dereference lvalue the out operand is the unpatched literal-0 cell (only
the first operand carries the readN label that the spilled address
patches), so running the program adds e into cell 0 and leaves the
addressed cell untouched. -/
theorem C8_add_assign_pointer_writes_cell_zero :
    (Compiler.gen_stmt 100
        (.add_assign (.read (.lit (.int 100))) (.lit (.int 7)))
        Examples.fState).map (fun st => st.ctx.text) =
      .ok [.instr (.add ⟨⟨none, .imm (.literal 0)⟩,
                         ⟨none, .imm (.literal 100)⟩,
                         ⟨none, .addr ⟨.name "read0"⟩⟩⟩),
           .instr (.add ⟨⟨some "read0", .addr ⟨.literal 0⟩⟩,
                         ⟨none, .imm (.literal 7)⟩,
                         ⟨none, .addr ⟨.literal 0⟩⟩⟩)] ∧
    As.encode [.instr (.add ⟨⟨none, .imm (.literal 0)⟩,
                             ⟨none, .imm (.literal 100)⟩,
                             ⟨none, .addr ⟨.name "read0"⟩⟩⟩),
               .instr (.add ⟨⟨some "read0", .addr ⟨.literal 0⟩⟩,
                             ⟨none, .imm (.literal 7)⟩,
                             ⟨none, .addr ⟨.literal 0⟩⟩⟩)] =
      .ok [1101, 0, 100, 5, 1001, 0, 7, 0] ∧
    ((Intcode.step Examples.addAssignProgram).bind Intcode.step).map
        (fun q => (q.memory 100, q.memory 0, q.memory 5)) =
      some (0, 7, 100) ∧
    (Compiler.gen_stmt 100 (.add_assign (.name "x") (.lit (.int 7)))
        Examples.gvState).map (fun st => st.ctx.text) =
      .ok [.instr (.add ⟨⟨none, .addr ⟨.name "gv_x"⟩⟩,
                         ⟨none, .imm (.literal 7)⟩,
                         ⟨none, .addr ⟨.name "gv_x"⟩⟩⟩)] := by
  refine ⟨rfl, rfl, rfl, rfl⟩

/-- Claim C9 counterexample: a const n in a while body whose name is bound
only in the enclosing (outer) function scope is rejected as a duplicate
definition, not accepted as a shadowing binding. -/
theorem C9_counterexample :
    Compiler.gen_stmts 100
      [.constant "n" (.lit (.int 1)),
       .while_statement (.lit (.int 1)) [.constant "n" (.lit (.int 2))]]
      Examples.fState =
    .error "Multiple definitions for \"n\" in function \"f\"." := rfl

/-- Claim C10 counterexample: the empty text is the comma-separated
rendering of zero integers and 0 is at most 5000, yet program::load aborts
on it (the first scanner read is unconditional) instead of returning an
empty span. -/
theorem C10_counterexample :
    Intcode.renderInts [] = [] ∧
    Intcode.program_load (String.mk (Intcode.renderInts []))
      Intcode.max_size = none := by
  refine ⟨rfl, rfl⟩

theorem mode_fromDigit_eq_imm (d : Nat) (h : d ≤ 2) :
    Intcode.mode.fromDigit d = .immediate ↔ d = 1 := by
  interval_cases d <;> simp [Intcode.mode.fromDigit]

theorem opcode_fromCode_ne_illegal (c : Nat)
    (h : Intcode.is_opcode c = true) :
    Intcode.opcode.fromCode c ≠ .illegal := by
  unfold Intcode.is_opcode at h
  simp only [Bool.or_eq_true, Bool.and_eq_true, decide_eq_true_eq,
    beq_iff_eq] at h
  rcases h with ⟨h1, h9⟩ | h99
  · interval_cases c <;> decide
  · subst h99; decide

theorem parse_op_valid (n : Nat) (h : Intcode.valid_head n = true) :
    Intcode.parse_op n = Intcode.spec_op n := by
  have h2 : n / 100 / 10 = n / 1000 := by rw [Nat.div_div_eq_div_mul]
  have h3 : n / 1000 / 10 = n / 10000 := by rw [Nat.div_div_eq_div_mul]
  have h4 : n / 10000 / 10 = n / 100000 := by rw [Nat.div_div_eq_div_mul]
  unfold Intcode.valid_head at h
  simp only [Bool.and_eq_true, beq_iff_eq] at h
  obtain ⟨⟨⟨⟨⟨hop, hm0⟩, hm1⟩, hm2⟩, hz⟩, hcomb⟩ := h
  have hm0d : n / 100 % 10 ≤ 2 := by
    simpa [Intcode.is_mode] using hm0
  have hm2d : n / 10000 % 10 ≤ 2 := by
    simpa [Intcode.is_mode] using hm2
  simp only [Intcode.parse_op, h2, h3, h4, hop, hm0, hm1, hm2, hz,
    not_true, if_false, ite_false, Bool.not_eq_true]
  simp only [hz, ne_eq, not_true_eq_false, if_false]
  cases hcode : Intcode.opcode.fromCode (n % 100) <;>
    simp only [hcode] at hcomb ⊢ <;>
    simp [Intcode.spec_op, hcode]
  case add =>
    have hni : ¬ (Intcode.mode.fromDigit (n / 10000 % 10) = .immediate) := by
      rw [mode_fromDigit_eq_imm _ hm2d]
      simpa using hcomb
    simp [hni]
  case mul =>
    have hni : ¬ (Intcode.mode.fromDigit (n / 10000 % 10) = .immediate) := by
      rw [mode_fromDigit_eq_imm _ hm2d]
      simpa using hcomb
    simp [hni]
  case less_than =>
    have hni : ¬ (Intcode.mode.fromDigit (n / 10000 % 10) = .immediate) := by
      rw [mode_fromDigit_eq_imm _ hm2d]
      simpa using hcomb
    simp [hni]
  case equals =>
    have hni : ¬ (Intcode.mode.fromDigit (n / 10000 % 10) = .immediate) := by
      rw [mode_fromDigit_eq_imm _ hm2d]
      simpa using hcomb
    simp [hni]
  case input =>
    have hni : ¬ (Intcode.mode.fromDigit (n / 100 % 10) = .immediate) := by
      rw [mode_fromDigit_eq_imm _ hm0d]
      simpa using hcomb
    simp [hni]

theorem parse_op_invalid (n : Nat) (h : Intcode.valid_head n = false) :
    (Intcode.parse_op n).code = .illegal := by
  have h2 : n / 100 / 10 = n / 1000 := by rw [Nat.div_div_eq_div_mul]
  have h3 : n / 1000 / 10 = n / 10000 := by rw [Nat.div_div_eq_div_mul]
  have h4 : n / 10000 / 10 = n / 100000 := by rw [Nat.div_div_eq_div_mul]
  by_cases hop : Intcode.is_opcode (n % 100) = true
  case neg => simp [Intcode.parse_op, hop]
  by_cases hm0 : Intcode.is_mode (n / 100 % 10) = true
  case neg => simp [Intcode.parse_op, hop, hm0]
  by_cases hm1 : Intcode.is_mode (n / 1000 % 10) = true
  case neg => simp [Intcode.parse_op, h2, hop, hm0, hm1]
  by_cases hm2 : Intcode.is_mode (n / 10000 % 10) = true
  case neg => simp [Intcode.parse_op, h2, h3, hop, hm0, hm1, hm2]
  by_cases hz : n / 100000 = 0
  case neg => simp [Intcode.parse_op, h2, h3, h4, hop, hm0, hm1, hm2, hz]
  have hm0d : n / 100 % 10 ≤ 2 := by simpa [Intcode.is_mode] using hm0
  have hm2d : n / 10000 % 10 ≤ 2 := by simpa [Intcode.is_mode] using hm2
  unfold Intcode.valid_head at h
  simp only [hop, hm0, hm1, hm2, hz, Bool.true_and, beq_self_eq_true,
    decide_True, Bool.and_eq_false_iff] at h
  simp only [Intcode.parse_op, h2, h3, h4, hop, hm0, hm1, hm2, hz,
    not_true, Bool.not_eq_true, ne_eq, not_true_eq_false, if_false]
  cases hcode : Intcode.opcode.fromCode (n % 100) <;>
    simp only [hcode] at h ⊢ <;>
    first
      | rfl
      | exact absurd h (by decide)
      | (have hd : n / 10000 % 10 = 1 := by simpa using h
         rw [if_pos ((mode_fromDigit_eq_imm _ hm2d).2 hd)])
      | (have hd : n / 100 % 10 = 1 := by simpa using h
         rw [if_pos ((mode_fromDigit_eq_imm _ hm0d).2 hd)])

theorem parse_op_write_modes (n : Nat) :
    (((Intcode.parse_op n).code = .add ∨ (Intcode.parse_op n).code = .mul ∨
      (Intcode.parse_op n).code = .less_than ∨
      (Intcode.parse_op n).code = .equals) →
      (Intcode.parse_op n).p2 ≠ .immediate) ∧
    ((Intcode.parse_op n).code = .input →
      (Intcode.parse_op n).p0 ≠ .immediate) := by
  simp only [Intcode.parse_op]
  repeat' split
  all_goals simp_all

theorem put_exists (p : Intcode.program) (o : Intcode.op) (i : Nat) (v : Int)
    (h : o.param i ≠ .immediate) : ∃ m, Intcode.put p o i v = some m := by
  cases hp : o.param i
  · exact ⟨Intcode.memWrite p.memory (p.memory (p.pc + i + 1)) v,
      by simp [Intcode.put, hp]⟩
  · exact absurd hp h
  · exact ⟨Intcode.memWrite p.memory
        (p.relative_base + p.memory (p.pc + i + 1)) v,
      by simp [Intcode.put, hp]⟩

theorem decode_eq_parse (x : Int) (o : Intcode.op)
    (hdec : Intcode.decode_op x = some o) : o = Intcode.parse_op x.toNat := by
  unfold Intcode.decode_op at hdec
  split at hdec
  · exact (Option.some.inj hdec).symm
  · cases hdec

/-- Claim C1: one loop iteration of program::resume executes a decoded
instruction as the spec tabulates it. Add and Mul write the sum resp.
product of get(0) and get(1) through operand 2 and advance pc by 4;
LessThan and Equals write exactly 1 when the comparison holds and 0
otherwise, advancing pc by 4; JumpIfTrue sets pc to get(1) when get(0) is
nonzero and to pc+3 otherwise, JumpIfFalse the converse; and
AdjustRelativeBase adds get(0) to the relative base, advancing pc by 2.
None of them touch the suspension state or (for jumps) memory. -/
theorem C1_instruction_semantics (p : Intcode.program) (o : Intcode.op)
    (hdec : Intcode.decode_op (p.memory p.pc) = some o) :
    (o.code = .add → ∃ q, Intcode.step p = some q ∧
      Intcode.put p o 2 (Intcode.get p o 0 + Intcode.get p o 1) =
        some q.memory ∧
      q.pc = p.pc + 4 ∧ q.state = p.state ∧
      q.relative_base = p.relative_base) ∧
    (o.code = .mul → ∃ q, Intcode.step p = some q ∧
      Intcode.put p o 2 (Intcode.get p o 0 * Intcode.get p o 1) =
        some q.memory ∧
      q.pc = p.pc + 4 ∧ q.state = p.state ∧
      q.relative_base = p.relative_base) ∧
    (o.code = .less_than → ∃ q, Intcode.step p = some q ∧
      Intcode.put p o 2
          (if Intcode.get p o 0 < Intcode.get p o 1 then 1 else 0) =
        some q.memory ∧
      q.pc = p.pc + 4 ∧ q.state = p.state ∧
      q.relative_base = p.relative_base) ∧
    (o.code = .equals → ∃ q, Intcode.step p = some q ∧
      Intcode.put p o 2
          (if Intcode.get p o 0 = Intcode.get p o 1 then 1 else 0) =
        some q.memory ∧
      q.pc = p.pc + 4 ∧ q.state = p.state ∧
      q.relative_base = p.relative_base) ∧
    (o.code = .jump_if_true → Intcode.step p = some { p with
      pc := if Intcode.get p o 0 ≠ 0 then Intcode.get p o 1
            else p.pc + 3 }) ∧
    (o.code = .jump_if_false → Intcode.step p = some { p with
      pc := if Intcode.get p o 0 = 0 then Intcode.get p o 1
            else p.pc + 3 }) ∧
    (o.code = .adjust_relative_base → Intcode.step p = some { p with
      relative_base := p.relative_base + Intcode.get p o 0,
      pc := p.pc + 2 }) := by
  have hsafe := parse_op_write_modes (p.memory p.pc).toNat
  rw [← decode_eq_parse _ _ hdec] at hsafe
  refine ⟨?_, ?_, ?_, ?_, ?_, ?_, ?_⟩ <;> intro hc
  · obtain ⟨m, hm⟩ := put_exists p o 2
      (Intcode.get p o 0 + Intcode.get p o 1) (hsafe.1 (Or.inl hc))
    refine ⟨{ p with memory := m, pc := p.pc + 4 }, ?_, hm, rfl, rfl, rfl⟩
    unfold Intcode.step
    rw [hdec]
    dsimp only
    rw [hc]
    dsimp only
    rw [hm]
  · obtain ⟨m, hm⟩ := put_exists p o 2
      (Intcode.get p o 0 * Intcode.get p o 1)
      (hsafe.1 (Or.inr (Or.inl hc)))
    refine ⟨{ p with memory := m, pc := p.pc + 4 }, ?_, hm, rfl, rfl, rfl⟩
    unfold Intcode.step
    rw [hdec]
    dsimp only
    rw [hc]
    dsimp only
    rw [hm]
  · obtain ⟨m, hm⟩ := put_exists p o 2
      (if Intcode.get p o 0 < Intcode.get p o 1 then 1 else 0)
      (hsafe.1 (Or.inr (Or.inr (Or.inl hc))))
    refine ⟨{ p with memory := m, pc := p.pc + 4 }, ?_, hm, rfl, rfl, rfl⟩
    unfold Intcode.step
    rw [hdec]
    dsimp only
    rw [hc]
    dsimp only
    rw [hm]
  · obtain ⟨m, hm⟩ := put_exists p o 2
      (if Intcode.get p o 0 = Intcode.get p o 1 then 1 else 0)
      (hsafe.1 (Or.inr (Or.inr (Or.inr hc))))
    refine ⟨{ p with memory := m, pc := p.pc + 4 }, ?_, hm, rfl, rfl, rfl⟩
    unfold Intcode.step
    rw [hdec]
    dsimp only
    rw [hc]
    dsimp only
    rw [hm]
  · unfold Intcode.step
    rw [hdec]
    dsimp only
    rw [hc]
  · unfold Intcode.step
    rw [hdec]
    dsimp only
    rw [hc]
    dsimp only
    by_cases hg : Intcode.get p o 0 = 0 <;> simp [hg]
  · unfold Intcode.step
    rw [hdec]
    dsimp only
    rw [hc]

/-- Witness for C1 at the concrete head 1101 (add, two immediate operands,
position destination): stepping the example program succeeds, stores
through operand 2, and advances pc by four. -/
theorem C1_witness :
    ∃ q, Intcode.step Examples.p1101 = some q ∧
      Intcode.put Examples.p1101 (Intcode.parse_op 1101) 2
        (Intcode.get Examples.p1101 (Intcode.parse_op 1101) 0 +
         Intcode.get Examples.p1101 (Intcode.parse_op 1101) 1) =
        some q.memory ∧
      q.pc = Examples.p1101.pc + 4 := by
  obtain ⟨q, hq, hput, hpc, _, _⟩ :=
    (C1_instruction_semantics Examples.p1101 (Intcode.parse_op 1101)
      (by rfl)).1 (by rfl)
  exact ⟨q, hq, hput, hpc⟩

theorem step_trap_of_decode_none (p : Intcode.program)
    (h : Intcode.decode_op (p.memory p.pc) = none) : Intcode.step p = none := by
  unfold Intcode.step
  rw [h]

theorem step_trap_of_illegal (p : Intcode.program) (o : Intcode.op)
    (h : Intcode.decode_op (p.memory p.pc) = some o)
    (hc : o.code = .illegal) : Intcode.step p = none := by
  unfold Intcode.step
  rw [h]
  dsimp only
  rw [hc]

/-- Claim C6: a head value inside the table's range whose decimal digits
pass the validity conditions decodes to exactly the op built from those
digits (a non-illegal one); every other head value makes the VM trap
instead of executing; and any op the decoder hands out never asks for an
immediate-mode write, so the abort branches inside put and the input case
are unreachable. -/
theorem C6_decode_completeness (x : Int) :
    (0 ≤ x ∧ x < 29999 →
      (Intcode.valid_head x.toNat = true →
        Intcode.decode_op x = some (Intcode.spec_op x.toNat) ∧
        (Intcode.spec_op x.toNat).code ≠ .illegal) ∧
      (Intcode.valid_head x.toNat = false →
        ∀ p : Intcode.program, p.memory p.pc = x →
          Intcode.step p = none)) ∧
    (¬ (0 ≤ x ∧ x < 29999) →
      Intcode.decode_op x = none ∧
      ∀ p : Intcode.program, p.memory p.pc = x → Intcode.step p = none) ∧
    (∀ o, Intcode.decode_op x = some o →
      ((o.code = .add ∨ o.code = .mul ∨ o.code = .less_than ∨
        o.code = .equals) → o.p2 ≠ .immediate) ∧
      (o.code = .input → o.p0 ≠ .immediate)) := by
  have hrange : Intcode.decode_op x =
      (if 0 ≤ x ∧ x < 29999 then some (Intcode.parse_op x.toNat)
       else none) := by
    unfold Intcode.decode_op Intcode.opsTableSize
    norm_num
  refine ⟨fun hin => ⟨fun hv => ?_, fun hv p hmem => ?_⟩,
          fun hout => ⟨?_, fun p hmem => ?_⟩, fun o ho => ?_⟩
  · constructor
    · rw [hrange, if_pos hin, parse_op_valid _ hv]
    · unfold Intcode.valid_head at hv
      simp only [Bool.and_eq_true] at hv
      exact opcode_fromCode_ne_illegal _ hv.1.1.1.1.1
  · apply step_trap_of_illegal p (Intcode.parse_op x.toNat)
    · rw [hmem, hrange, if_pos hin]
    · exact parse_op_invalid _ hv
  · rw [hrange, if_neg hout]
  · apply step_trap_of_decode_none
    rw [hmem, hrange, if_neg hout]
  · have := parse_op_write_modes x.toNat
    rw [← decode_eq_parse _ _ ho] at this
    exact this

/-- Witness for C6: the valid head 1101 decodes to add with modes
(immediate, immediate, position); the in-range head 11101 (immediate
destination for add) and the out-of-range head 123456 both trap. -/
theorem C6_witness :
    (Intcode.decode_op 1101 =
      some { code := .add, p0 := .immediate, p1 := .immediate,
             p2 := .position } ∧
     Intcode.spec_op 1101 =
      { code := .add, p0 := .immediate, p1 := .immediate,
        p2 := .position }) ∧
    Intcode.step Examples.pBad = none ∧
    Intcode.step Examples.pHuge = none := by
  refine ⟨⟨?_, by rfl⟩, ?_, ?_⟩
  · have h := (((C6_decode_completeness 1101).1 (by norm_num)).1 (by rfl)).1
    rw [h]
    rfl
  · exact ((C6_decode_completeness 11101).1 (by norm_num)).2 (by rfl)
      Examples.pBad rfl
  · exact ((C6_decode_completeness 123456).2.1 (by norm_num)).2
      Examples.pHuge rfl
theorem step_suspend (p q : Intcode.program) (hp : p.state = .ready)
    (h : Intcode.step p = some q) :
    (q.state = .waiting_for_input →
      ∃ o, Intcode.decode_op (q.memory q.pc) = some o ∧ o.code = .input) ∧
    (q.state = .output →
      ∃ o, Intcode.decode_op (q.memory q.pc) = some o ∧
        o.code = .output) := by
  unfold Intcode.step at h
  rcases hdec : Intcode.decode_op (p.memory p.pc) with _ | o <;>
    rw [hdec] at h <;> dsimp only at h
  · cases h
  · cases hc : o.code <;> rw [hc] at h <;> dsimp only at h
    case illegal => cases h
    case add =>
      split at h
      · cases h
      · cases h
        constructor <;> intro hs <;> simp [hp] at hs
    case mul =>
      split at h
      · cases h
      · cases h
        constructor <;> intro hs <;> simp [hp] at hs
    case less_than =>
      split at h
      · cases h
      · cases h
        constructor <;> intro hs <;> simp [hp] at hs
    case equals =>
      split at h
      · cases h
      · cases h
        constructor <;> intro hs <;> simp [hp] at hs
    case input =>
      split at h
      · cases h
        exact ⟨fun _ => ⟨o, hdec, hc⟩, fun hs => by simp at hs⟩
      · cases h
      · cases h
        exact ⟨fun _ => ⟨o, hdec, hc⟩, fun hs => by simp at hs⟩
    case output =>
      cases h
      exact ⟨fun hs => by simp at hs, fun _ => ⟨o, hdec, hc⟩⟩
    case jump_if_true =>
      cases h
      constructor <;> intro hs <;> simp [hp] at hs
    case jump_if_false =>
      cases h
      constructor <;> intro hs <;> simp [hp] at hs
    case adjust_relative_base =>
      cases h
      constructor <;> intro hs <;> simp [hp] at hs
    case halt =>
      cases h
      constructor <;> intro hs <;> simp at hs

theorem resumeLoop_suspend (fuel : Nat) : ∀ (p q : Intcode.program),
    p.state = .ready → Intcode.resumeLoop fuel p = some q →
    ((q.state = .waiting_for_input →
       ∃ o, Intcode.decode_op (q.memory q.pc) = some o ∧
         o.code = .input) ∧
     (q.state = .output →
       ∃ o, Intcode.decode_op (q.memory q.pc) = some o ∧
         o.code = .output)) := by
  induction fuel with
  | zero => intro p q hp h; cases h
  | succ k ih =>
      intro p q hp h
      unfold Intcode.resumeLoop at h
      rcases hs : Intcode.step p with _ | r <;> rw [hs] at h <;>
        dsimp only at h
      · cases h
      · cases hrs : r.state <;> rw [hrs] at h <;> dsimp only at h
        · exact ih r q hrs h
        · cases h; exact step_suspend p q hp hs
        · cases h; exact step_suspend p q hp hs
        · cases h; exact step_suspend p q hp hs

/-- Claim C7: resume requires the ready state and otherwise terminates the
process; provide_input requires the waiting state (otherwise fatal) and,
when allowed, writes its argument to the recorded input address, returns
to ready and advances pc by exactly 2; get_output requires the output
state, yields the pending value, returns to ready and advances pc by 2;
and a resume that suspends leaves pc pointing at the suspended
Input/Output instruction. -/
theorem C7_coroutine_protocol (p : Intcode.program) (x : Int) (fuel : Nat) :
    (p.state ≠ .ready → Intcode.resume fuel p = none) ∧
    (p.state ≠ .waiting_for_input → Intcode.provide_input p x = none) ∧
    (p.state = .waiting_for_input →
      Intcode.provide_input p x = some { p with
        state := .ready,
        memory := Intcode.memWrite p.memory p.input_address x,
        pc := p.pc + 2 }) ∧
    (p.state = .output → Intcode.get_output p =
      some (p.output_value, { p with state := .ready, pc := p.pc + 2 })) ∧
    (p.state ≠ .output → Intcode.get_output p = none) ∧
    (∀ q, Intcode.resume fuel p = some q →
      (q.state = .waiting_for_input →
        ∃ o, Intcode.decode_op (q.memory q.pc) = some o ∧
          o.code = .input) ∧
      (q.state = .output →
        ∃ o, Intcode.decode_op (q.memory q.pc) = some o ∧
          o.code = .output)) := by
  refine ⟨fun h => ?_, fun h => ?_, fun h => ?_, fun h => ?_, fun h => ?_,
          fun q hq => ?_⟩
  · simp [Intcode.resume, h]
  · simp [Intcode.provide_input, h]
  · simp [Intcode.provide_input, h]
  · simp [Intcode.get_output, h]
  · simp [Intcode.get_output, h]
  · by_cases hp : p.state = .ready
    · exact resumeLoop_suspend fuel p q hp (by simpa [Intcode.resume, hp]
        using hq)
    · simp [Intcode.resume, hp] at hq

/-- Witness for C7: resuming the example input program suspends on its
input instruction with pc still at it; provide_input on the suspended
state stores 7 at the recorded cell 9 and advances pc to 2; get_output on
the suspended output program yields 7; and the misuse cases are fatal. -/
theorem C7_witness :
    Intcode.resume 5 Examples.pInput = some Examples.qWait ∧
    (∃ o, Intcode.decode_op (Examples.qWait.memory Examples.qWait.pc) =
        some o ∧ o.code = .input) ∧
    Intcode.provide_input Examples.qWait 7 =
      some { Examples.qWait with
        state := .ready,
        memory := Intcode.memWrite Examples.qWait.memory
          Examples.qWait.input_address 7,
        pc := Examples.qWait.pc + 2 } ∧
    Intcode.get_output Examples.qOut =
      some (Examples.qOut.output_value,
        { Examples.qOut with
          state := .ready,
          pc := Examples.qOut.pc + 2 }) ∧
    Intcode.resume 5 Examples.qWait = none ∧
    Intcode.provide_input Examples.pInput 7 = none := by
  refine ⟨by rfl, ?_, ?_, ?_, ?_, ?_⟩
  · exact ((C7_coroutine_protocol Examples.pInput 0 5).2.2.2.2.2
      Examples.qWait (by rfl)).1 rfl
  · exact (C7_coroutine_protocol Examples.qWait 7 5).2.2.1 rfl
  · exact (C7_coroutine_protocol Examples.qOut 0 5).2.2.2.1 rfl
  · exact (C7_coroutine_protocol Examples.qWait 0 5).1 (by decide)
  · exact (C7_coroutine_protocol Examples.pInput 7 5).2.1 (by decide)
namespace Intcode

theorem digit_char_spec (d : Nat) (h : d ≤ 9) :
    (Char.ofNat (48 + d)).isDigit = true ∧
    (Char.ofNat (48 + d)).toNat = 48 + d := by
  interval_cases d <;> exact ⟨by decide, by decide⟩

theorem renderNat_spec (n : Nat) :
    renderNat n ≠ [] ∧ (∀ c ∈ renderNat n, c.isDigit = true) ∧
    digitsToNat (renderNat n) = n := by
  induction n using Nat.strong_induction_on with
  | _ n ih =>
    rw [renderNat]
    by_cases h : n < 10
    · rw [dif_pos h]
      have hd := digit_char_spec n (by omega)
      refine ⟨by simp, ?_, ?_⟩
      · intro c hc
        simp at hc
        rw [hc]
        exact hd.1
      · simp [digitsToNat, hd.2]
    · rw [dif_neg h]
      obtain ⟨hne, hdig, hval⟩ :=
        ih (n / 10) (Nat.div_lt_self (by omega) (by omega))
      have hd := digit_char_spec (n % 10) (by omega)
      refine ⟨by simp, ?_, ?_⟩
      · intro c hc
        simp at hc
        rcases hc with hc | hc
        · exact hdig c hc
        · rw [hc]; exact hd.1
      · unfold digitsToNat at hval ⊢
        rw [List.foldl_append]
        simp [hval, hd.2]
        omega

theorem digit_not_space {c : Char} (h : c.isDigit = true) :
    io_is_space c = false := by
  unfold io_is_space
  simp only [decide_eq_false_iff_not]
  rintro (rfl | rfl | rfl | rfl | rfl | rfl) <;> simp at h

theorem digit_ne_minus {c : Char} (h : c.isDigit = true) : c ≠ '-' := by
  rintro rfl
  simp at h

theorem takeWhile_digits_append (l rest : List Char)
    (hl : ∀ c ∈ l, c.isDigit = true)
    (hrest : ∀ c, rest.head? = some c → c.isDigit = false) :
    (l ++ rest).takeWhile Char.isDigit = l := by
  induction l with
  | nil =>
      cases rest with
      | nil => rfl
      | cons c cs => simp [List.takeWhile_cons, hrest c rfl]
  | cons a t ih =>
      have ha := hl a (by simp)
      simp only [List.cons_append, List.takeWhile_cons, ha, if_true]
      rw [ih (fun c hc => hl c (by simp [hc]))]

theorem fromCharsInt64_render (v : Int) (rest : List Char)
    (h1 : int64Min ≤ v) (h2 : v ≤ int64Max)
    (hrest : ∀ c, rest.head? = some c → c.isDigit = false) :
    fromCharsInt64 (renderInt v ++ rest) =
      some (v, (renderInt v).length) := by
  by_cases hv : v < 0
  · obtain ⟨hne, hdig, hval⟩ := renderNat_spec (-v).toNat
    unfold renderInt
    rw [if_pos hv, List.cons_append]
    unfold fromCharsInt64
    rw [if_pos (show ('-' :: (renderNat (-v).toNat ++ rest)).head? =
          some '-' from rfl)]
    simp only [List.tail_cons]
    rw [takeWhile_digits_append _ _ hdig hrest, if_neg hne, hval]
    have hveq : -(((-v).toNat : Nat) : Int) = v := by omega
    rw [hveq, if_neg (not_lt.mpr h1)]
    simp [Nat.add_comm]
  · obtain ⟨hne, hdig, hval⟩ := renderNat_spec v.toNat
    unfold renderInt
    rw [if_neg hv]
    obtain ⟨c, t, hct⟩ := List.exists_cons_of_ne_nil hne
    have hcd : c.isDigit = true := hdig c (by rw [hct]; simp)
    unfold fromCharsInt64
    rw [hct, List.cons_append]
    rw [if_neg (by simp [digit_ne_minus hcd])]
    rw [← List.cons_append, ← hct]
    rw [takeWhile_digits_append _ _ hdig hrest, if_neg hne, hval]
    have hvq : ((v.toNat : Nat) : Int) = v := by omega
    rw [hvq, if_neg (not_lt.mpr h2)]

theorem renderInt_ne_nil (v : Int) : renderInt v ≠ [] := by
  unfold renderInt
  split
  · simp
  · exact (renderNat_spec v.toNat).1

theorem renderInt_head_not_space (v : Int) :
    ∀ c, (renderInt v).head? = some c → io_is_space c = false := by
  intro c hc
  unfold renderInt at hc
  split at hc
  · simp at hc
    rw [← hc]
    decide
  · obtain ⟨hne, hdig, _⟩ := renderNat_spec v.toNat
    obtain ⟨a, t, hat⟩ := List.exists_cons_of_ne_nil hne
    rw [hat] at hc
    simp at hc
    exact digit_not_space (hc ▸ hdig a (by rw [hat]; simp))

theorem skipIoSpace_of_head {l : List Char}
    (h : ∀ c, l.head? = some c → io_is_space c = false) :
    skipIoSpace l = l := by
  cases l with
  | nil => rfl
  | cons c t => simp [skipIoSpace, List.dropWhile_cons, h c rfl]

theorem scanInt64_render (v : Int) (rest : List Char)
    (h1 : int64Min ≤ v) (h2 : v ≤ int64Max)
    (hrest : ∀ c, rest.head? = some c → c.isDigit = false) :
    scanInt64 (renderInt v ++ rest) = some (v, rest) := by
  have hskip : skipIoSpace (renderInt v ++ rest) = renderInt v ++ rest := by
    apply skipIoSpace_of_head
    intro c hc
    apply renderInt_head_not_space v
    obtain ⟨a, t, hat⟩ := List.exists_cons_of_ne_nil (renderInt_ne_nil v)
    rw [hat] at hc ⊢
    simpa using hc
  unfold scanInt64
  rw [hskip, fromCharsInt64_render v rest h1 h2 hrest]
  simp [List.drop_left]

end Intcode
namespace Intcode

theorem renderTail_head_not_digit (l : List Int) :
    ∀ c, (renderTail l).head? = some c → c.isDigit = false := by
  intro c hc
  cases l with
  | nil => simp [renderTail] at hc
  | cons v rest =>
      simp [renderTail] at hc
      rw [← hc]
      decide

theorem scanDone_renderTail_cons (v : Int) (rest : List Int) :
    scanDone (renderTail (v :: rest)) = false := by
  simp [renderTail, scanDone, skipIoSpace, List.dropWhile_cons,
    show io_is_space ',' = false from by decide]

theorem scanComma_renderTail (v : Int) (rest : List Int) :
    scanComma (renderTail (v :: rest)) =
      some (renderInt v ++ renderTail rest) := by
  simp [renderTail, scanComma, skipIoSpace, List.dropWhile_cons,
    show io_is_space ',' = false from by decide]

theorem load_loop_render (l : List Int) : ∀ (nAcc : Nat) (acc : List Int),
    (∀ v ∈ l, int64Min ≤ v ∧ v ≤ int64Max) → nAcc + l.length ≤ 5000 →
    load_loop 5000 nAcc acc (renderTail l) = some (acc ++ l) := by
  induction l with
  | nil =>
      intro nAcc acc _ _
      rw [load_loop]
      simp [renderTail, scanDone, skipIoSpace]
  | cons v rest ih =>
      intro nAcc acc hb hn
      have h3 : scanInt64 (renderInt v ++ renderTail rest) =
          some (v, renderTail rest) :=
        scanInt64_render v (renderTail rest) (hb v (by simp)).1
          (hb v (by simp)).2 (renderTail_head_not_digit rest)
      rw [load_loop]
      rw [scanDone_renderTail_cons]
      rw [if_neg (by simp : ¬ (false = true))]
      rw [if_pos (by simp at hn; omega)]
      rw [scanComma_renderTail]
      dsimp only
      rw [h3]
      dsimp only
      have := ih (nAcc + 1) (acc ++ [v])
        (fun w hw => hb w (by simp [hw])) (by simp at hn ⊢; omega)
      rw [this]
      simp

theorem load_loop_overflow (l : List Int) : ∀ (nAcc : Nat) (acc : List Int),
    l ≠ [] → (∀ v ∈ l, int64Min ≤ v ∧ v ≤ int64Max) →
    5000 < nAcc + l.length →
    load_loop 5000 nAcc acc (renderTail l) = none := by
  induction l with
  | nil => intro _ _ h; exact absurd rfl h
  | cons v rest ih =>
      intro nAcc acc _ hb hn
      rw [load_loop]
      rw [scanDone_renderTail_cons]
      rw [if_neg (by simp : ¬ (false = true))]
      by_cases hlt : nAcc < 5000
      · have hrest : rest ≠ [] := by
          rintro rfl
          simp at hn
          omega
        have h3 : scanInt64 (renderInt v ++ renderTail rest) =
            some (v, renderTail rest) :=
          scanInt64_render v (renderTail rest) (hb v (by simp)).1
            (hb v (by simp)).2 (renderTail_head_not_digit rest)
        rw [if_pos hlt]
        rw [scanComma_renderTail]
        dsimp only
        rw [h3]
        dsimp only
        exact ih (nAcc + 1) (acc ++ [v]) hrest
          (fun w hw => hb w (by simp [hw])) (by simp at hn ⊢; omega)
      · rw [if_neg hlt]

theorem renderInts_cons (rest : List Int) : ∀ v,
    renderInts (v :: rest) = renderInt v ++ renderTail rest := by
  induction rest with
  | nil => intro v; simp [renderInts, renderTail]
  | cons w r ih =>
      intro v
      show renderInt v ++ ',' :: renderInts (w :: r) = _
      rw [ih w]
      simp [renderTail]

end Intcode
theorem lookup_append_self {α : Type} (l : List (String × α)) (n : String)
    (v : α) (h : l.lookup n = none) : (l ++ [(n, v)]).lookup n = some v := by
  induction l with
  | nil => simp [List.lookup]
  | cons kv t ih =>
      obtain ⟨k, w⟩ := kv
      by_cases hk : (n == k) = true
      · simp [List.lookup, hk] at h
      · have hk2 : (n == k) = false := by simpa using hk
        simp only [List.cons_append, List.lookup, hk2] at h ⊢
        exact ih h

theorem scanFrames_isSome_iff (n : String) (sc : List Compiler.envFrame) :
    (Compiler.scanFrames n sc).isSome = true ↔
    ∃ f ∈ sc, (f.vars.lookup n).isSome = true ∨
      (f.constants.lookup n).isSome = true := by
  induction sc with
  | nil => simp [Compiler.scanFrames]
  | cons f rest ih =>
      by_cases h1 : (f.vars.lookup n).isSome = true
      · simp [Compiler.scanFrames, h1]
        exact Or.inl (Or.inl (by simpa using h1))
      · by_cases h2 : (f.constants.lookup n).isSome = true
        · simp [Compiler.scanFrames, h1, h2]
          exact Or.inl (Or.inr (by simpa using h2))
        · simp [Compiler.scanFrames, h1, h2, ih]
          rintro (hx | hx)
          · exact absurd (by simpa using hx) h1
          · exact absurd (by simpa using hx) h2

theorem scanFrames_local (n : String) (sc : List Compiler.envFrame)
    (k : Compiler.variable_kind) (h : Compiler.scanFrames n sc = some k) :
    k = .local_variable ∨ k = .local_constant := by
  induction sc with
  | nil => cases h
  | cons f rest ih =>
      unfold Compiler.scanFrames at h
      split at h
      · cases h; exact Or.inl rfl
      · split at h
        · cases h; exact Or.inr rfl
        · exact ih h

theorem scanFrames_cons_none (n : String) (f : Compiler.envFrame)
    (rest : List Compiler.envFrame)
    (h : Compiler.scanFrames n (f :: rest) = none) :
    f.vars.lookup n = none ∧ f.constants.lookup n = none ∧
    Compiler.scanFrames n rest = none := by
  unfold Compiler.scanFrames at h
  split at h
  · cases h
  · split at h
    · cases h
    · rename_i h1 h2
      refine ⟨?_, ?_, h⟩
      · cases hv : f.vars.lookup n
        · rfl
        · rw [hv] at h1; simp at h1
      · cases hv : f.constants.lookup n
        · rfl
        · rw [hv] at h2; simp at h2

/-- Claim C9 (amended): a const n = e is rejected as a duplicate exactly
when n is bound in any scope frame of the same function (innermost or
enclosing) and n is not a parameter name; when no local frame binds n the
constant is accepted and the binding lands in the innermost frame, where
it shadows any module-scope binding of n. -/
theorem C9_const_scoping (st : Compiler.GenState) (n : String)
    (e : Compiler.expression) (fuel : Nat) :
    (Compiler.has_local st n = true →
      Compiler.gen_stmt (fuel + 1) (.constant n e) st =
        .error ("Multiple definitions for " ++ As.cppQuoted n ++
                " in function " ++ As.cppQuoted st.fc.function_name ++
                ".")) ∧
    (Compiler.has_local st n = false →
      ∀ v st2, Compiler.eval_expr e st = .ok (v, st2) →
        Compiler.gen_stmt (fuel + 1) (.constant n e) st =
          .ok (Compiler.define_constant st2 n v)) ∧
    (Compiler.has_local st n = true ↔
      st.fc.arguments.contains n = false ∧
      ∃ f ∈ st.fc.scope, (f.vars.lookup n).isSome = true ∨
        (f.constants.lookup n).isSome = true) ∧
    (∀ v, Compiler.scanFrames n st.fc.scope = none → st.fc.scope ≠ [] →
      Compiler.get_constant (Compiler.define_constant st n v) n = .ok v) := by
  refine ⟨fun h => ?_, fun h v st2 hev => ?_, ?_, fun v hscan hne => ?_⟩
  · simp [Compiler.gen_stmt, h]
  · simp [Compiler.gen_stmt, h, hev]
  · constructor
    · intro h
      unfold Compiler.has_local Compiler.lookupKind at h
      by_cases harg : st.fc.arguments.contains n = true
      · rw [if_pos harg] at h
        simp at h
      · refine ⟨by simpa using harg, ?_⟩
        rw [← scanFrames_isSome_iff]
        simp only [harg] at h
        cases hscan : Compiler.scanFrames n st.fc.scope with
        | none =>
            rw [if_neg (by simpa using harg), hscan] at h
            exfalso
            revert h
            dsimp only
            repeat' split
            all_goals simp
        | some k => simp
    · rintro ⟨harg, hex⟩
      rw [← scanFrames_isSome_iff] at hex
      cases hscan : Compiler.scanFrames n st.fc.scope with
      | none => rw [hscan] at hex; simp at hex
      | some k =>
          unfold Compiler.has_local Compiler.lookupKind
          rw [if_neg (by simpa using harg), hscan]
          rcases scanFrames_local n _ k hscan with rfl | rfl <;> simp
  · cases hsc : st.fc.scope with
    | nil => exact absurd hsc hne
    | cons cur rest =>
        obtain ⟨hv, hc, _⟩ := scanFrames_cons_none n cur rest (hsc ▸ hscan)
        unfold Compiler.define_constant
        rw [hsc]
        unfold Compiler.get_constant
        dsimp only
        unfold Compiler.findLocalConstant
        unfold Compiler.mapEmplace
        rw [if_neg (by simp [hc])]
        rw [lookup_append_self cur.constants n v hc]

/-- Witness for C9: a const n = 2 inside a block whose enclosing function
scope already binds n is rejected, while a const n = 1 that only shadows a
module-level constant n is accepted and lands in the innermost frame. -/
theorem C9_witness :
    Compiler.gen_stmt 50 (.constant "n" (.lit (.int 2)))
      Examples.shadowState =
      .error "Multiple definitions for \"n\" in function \"f\"." ∧
    Compiler.gen_stmt 50 (.constant "n" (.lit (.int 1)))
      Examples.globalNState =
      .ok (Compiler.define_constant Examples.globalNState "n"
        (As.immediate.literal 1)) := by
  constructor
  · exact (C9_const_scoping Examples.shadowState "n"
      (.lit (.int 2)) 49).1 (by rfl)
  · exact (C9_const_scoping Examples.globalNState "n"
      (.lit (.int 1)) 49).2.1 (by rfl) (As.immediate.literal 1)
      Examples.globalNState (by rfl)

/-- Claim C10 (amended): program::load accepts between 1 and 5000
comma-separated integers. On the canonical comma-separated rendering of a
list of n in-range integers it returns exactly those n values in source
order when 1 <= n <= 5000, it aborts once a 5001st value appears, and it
aborts on a malformed token. (The n = 0 rendering also aborts, per the
counterexample.) -/
theorem C10_load_bounds :
    (∀ l : List Int, (∀ v ∈ l, int64Min ≤ v ∧ v ≤ int64Max) →
      1 ≤ l.length → l.length ≤ 5000 →
      Intcode.program_load (String.mk (Intcode.renderInts l))
        Intcode.max_size = some l) ∧
    (∀ l : List Int, (∀ v ∈ l, int64Min ≤ v ∧ v ≤ int64Max) →
      5000 < l.length →
      Intcode.program_load (String.mk (Intcode.renderInts l))
        Intcode.max_size = none) ∧
    Intcode.program_load "1,x" Intcode.max_size = none := by
  refine ⟨?_, ?_, ?_⟩
  · intro l hb h1 h5
    cases l with
    | nil => simp at h1
    | cons v rest =>
        have h3 : Intcode.scanInt64
            (Intcode.renderInt v ++ Intcode.renderTail rest) =
            some (v, Intcode.renderTail rest) :=
          Intcode.scanInt64_render v _ (hb v (by simp)).1 (hb v (by simp)).2
            (Intcode.renderTail_head_not_digit rest)
        unfold Intcode.program_load Intcode.max_size
        rw [if_neg (by omega)]
        have hdata : (String.mk (Intcode.renderInts (v :: rest))).data =
            Intcode.renderInt v ++ Intcode.renderTail rest := by
          simp [Intcode.renderInts_cons]
        rw [hdata, h3]
        dsimp only
        rw [Intcode.load_loop_render rest 1 [v]
          (fun w hw => hb w (by simp [hw])) (by simp at h5 ⊢; omega)]
        simp
  · intro l hb h5
    cases l with
    | nil => simp at h5
    | cons v rest =>
        have h3 : Intcode.scanInt64
            (Intcode.renderInt v ++ Intcode.renderTail rest) =
            some (v, Intcode.renderTail rest) :=
          Intcode.scanInt64_render v _ (hb v (by simp)).1 (hb v (by simp)).2
            (Intcode.renderTail_head_not_digit rest)
        unfold Intcode.program_load Intcode.max_size
        rw [if_neg (by omega)]
        have hdata : (String.mk (Intcode.renderInts (v :: rest))).data =
            Intcode.renderInt v ++ Intcode.renderTail rest := by
          simp [Intcode.renderInts_cons]
        rw [hdata, h3]
        dsimp only
        rw [Intcode.load_loop_overflow rest 1 [v]
          (by rintro rfl; simp at h5)
          (fun w hw => hb w (by simp [hw])) (by simp at h5 ⊢; omega)]
  · have h1 : Intcode.scanInt64 "1,x".data = some (1, [',', 'x']) := by rfl
    unfold Intcode.program_load Intcode.max_size
    rw [if_neg (by omega), h1]
    dsimp only
    rw [Intcode.load_loop]
    rfl

/-- Witness for C10: loading the rendering of the three-value list yields
exactly those values. -/
theorem C10_witness :
    Intcode.program_load (String.mk (Intcode.renderInts [1, -2, 30]))
      Intcode.max_size = some [1, -2, 30] := by
  exact C10_load_bounds.1 [1, -2, 30] (by norm_num [int64Min, int64Max])
    (by simp) (by simp)

/-- Claim C2: for every resolved instruction, encode emits exactly size(i)
cells: first the head cell opcode + 100*mode(a) + 1000*mode(b) +
10000*mode(out) (Address 0, Immediate 1, Relative 2), then the operand
values in operand order; Literal emits its value alone and Halt's head is
exactly 99; whenever encoding succeeds the cell count equals size. -/
theorem C2_encode_layout :
    (∀ v : Int, As.encode_instruction (.literal v) = .ok [v]) ∧
    As.encode_instruction .halt = .ok [99] ∧
    (∀ c : As.calculation, ∀ va vb vo : Int,
      As.param_value_in c.a = .ok va → As.param_value_in c.b = .ok vb →
      As.param_value_out c.out = .ok vo →
      As.encode_instruction (.add c) =
        .ok [1 + 100 * As.mode_in c.a + 1000 * As.mode_in c.b +
             10000 * As.mode_out c.out, va, vb, vo] ∧
      As.encode_instruction (.mul c) =
        .ok [2 + 100 * As.mode_in c.a + 1000 * As.mode_in c.b +
             10000 * As.mode_out c.out, va, vb, vo] ∧
      As.encode_instruction (.less_than c) =
        .ok [7 + 100 * As.mode_in c.a + 1000 * As.mode_in c.b +
             10000 * As.mode_out c.out, va, vb, vo] ∧
      As.encode_instruction (.equals c) =
        .ok [8 + 100 * As.mode_in c.a + 1000 * As.mode_in c.b +
             10000 * As.mode_out c.out, va, vb, vo]) ∧
    (∀ o : As.output_param, ∀ v : Int, As.param_value_out o = .ok v →
      As.encode_instruction (.input o) = .ok [3 + 100 * As.mode_out o, v]) ∧
    (∀ i : As.input_param, ∀ v : Int, As.param_value_in i = .ok v →
      As.encode_instruction (.output i) = .ok [4 + 100 * As.mode_in i, v]) ∧
    (∀ j : As.jump, ∀ vc vt : Int,
      As.param_value_in j.condition = .ok vc →
      As.param_value_in j.target = .ok vt →
      As.encode_instruction (.jump_if_true j) =
        .ok [5 + 100 * As.mode_in j.condition +
             1000 * As.mode_in j.target, vc, vt] ∧
      As.encode_instruction (.jump_if_false j) =
        .ok [6 + 100 * As.mode_in j.condition +
             1000 * As.mode_in j.target, vc, vt]) ∧
    (∀ a : As.input_param, ∀ v : Int, As.param_value_in a = .ok v →
      As.encode_instruction (.adjust_relative_base a) =
        .ok [9 + 100 * As.mode_in a, v]) ∧
    (∀ i : As.instruction, ∀ l : List Int,
      As.encode_instruction i = .ok l → l.length = As.size i) := by
  refine ⟨fun v => by simp [As.encode_instruction, As.opcode_instr,
      As.mode_instr, pure, Except.pure],
    by simp [As.encode_instruction, As.opcode_instr, As.mode_instr,
      pure, Except.pure],
    ?_, ?_, ?_, ?_, ?_, ?_⟩
  · intro c va vb vo ha hb ho
    refine ⟨?_, ?_, ?_, ?_⟩ <;>
      (simp only [As.encode_instruction, As.opcode_instr, As.mode_instr,
        ha, hb, ho, bind, Except.bind, pure, Except.pure]
       simp only [Except.ok.injEq, List.cons.injEq, and_true, true_and]
       ring)
  · intro o v h
    simp only [As.encode_instruction, As.opcode_instr, As.mode_instr,
      h, bind, Except.bind, pure, Except.pure]
    simp only [Except.ok.injEq, List.cons.injEq, and_true, true_and]
    ring
  · intro i v h
    simp only [As.encode_instruction, As.opcode_instr, As.mode_instr,
      h, bind, Except.bind, pure, Except.pure]
    simp only [Except.ok.injEq, List.cons.injEq, and_true, true_and]
    ring
  · intro j vc vt hc ht
    refine ⟨?_, ?_⟩ <;>
      (simp only [As.encode_instruction, As.opcode_instr, As.mode_instr,
        hc, ht, bind, Except.bind, pure, Except.pure]
       simp only [Except.ok.injEq, List.cons.injEq, and_true, true_and]
       ring)
  · intro a v h
    simp only [As.encode_instruction, As.opcode_instr, As.mode_instr,
      h, bind, Except.bind, pure, Except.pure]
    simp only [Except.ok.injEq, List.cons.injEq, and_true, true_and]
    ring
  · intro i l h
    cases i <;>
      simp only [As.encode_instruction, bind, Except.bind, pure,
        Except.pure] at h
    all_goals repeat' split at h
    all_goals first
      | (cases h; simp [As.size])
      | simp_all [As.size]

/-- Witness for C2: encoding add with an immediate first operand, a
relative second operand and an address destination produces the tabulated
head and four cells. -/
theorem C2_witness :
    As.param_value_in Examples.cAdd.a = .ok 11 ∧
    As.param_value_in Examples.cAdd.b = .ok 22 ∧
    As.param_value_out Examples.cAdd.out = .ok 33 ∧
    As.encode_instruction (.add Examples.cAdd) =
      .ok [1 + 100 * 1 + 1000 * 2 + 10000 * 0, 11, 22, 33] := by
  refine ⟨rfl, rfl, rfl, ?_⟩
  have h := (C2_encode_layout.2.2.1 Examples.cAdd 11 22 33 rfl rfl rfl).1
  simpa using h
